import Mathlib

/-!
Formatting and cloning of the `FROM ... JOIN ...` subtree of a `SELECT` query:
a shallow embedding of `dbms/src/Parsers/ASTTablesInSelectQuery.cpp`.

* The output sink `settings.ostr` is append-only and never read back, so a call is described by
  the text it appends.  The text is a list of `Sym`: ordinary characters, plus two symbols for the
  constants `hilite_keyword` and `hilite_none`, whose values are declared outside this file.
* `formatImpl` threads the mutable `FormatState` through every call and may be left by an
  exception, its own or one of a sub-tree; `Fmt` records the appended text, the state and how
  the call was left.
* The sub-trees owned by `ASTTableExpression` and `ASTTableJoin` (table reference, table function,
  subquery, sample expressions, USING list, ON predicate) belong to node types defined elsewhere.
  They are a type parameter `α` with the two capabilities this file calls, `clone` and
  `formatImpl` (class `IAST`).
-/

namespace DB

/-! ## Output sink, settings, state -/

/-- One unit of output: a character, or one of the two highlighting constants. -/
inductive Sym where
  | ch (c : Char)
  | hilite_keyword
  | hilite_none
deriving DecidableEq, Repr

/-- Text written to `settings.ostr`. -/
abbrev Ostr := List Sym

/-- The output of `ostr << s` for a character string `s`. -/
def str (s : String) : Ostr := s.data.map Sym.ch

/-- Modelled from the spec: `FormatSettings` is declared in the IAST header; the recognised options
are `one_line`, `hilite` and the separator `nl_or_ws`.  The sink `ostr` is the text of `Fmt`. -/
structure FormatSettings where
  hilite : Bool
  one_line : Bool
  nl_or_ws : String
deriving DecidableEq, Repr

/-- Modelled from the spec: `FormatState` is declared in the IAST header; this file only passes it
on to the sub-trees, which may change it. -/
structure FormatState where
  token : Nat
deriving DecidableEq, Repr

/-- Modelled from the spec: `FormatStateStacked` is declared in the IAST header; a per-call frame
with the nesting depth `indent` and the flag `need_parens`. -/
structure FormatStateStacked where
  indent : Nat
  need_parens : Bool
deriving DecidableEq, Repr

/-- The exception thrown by `throw Exception(message)`. -/
structure Exception where
  message : String
deriving DecidableEq, Repr

/-- How a call was left: by returning, or by an exception. -/
inductive Completion (β : Type) where
  | returned (v : β)
  | thrown (e : Exception)
deriving DecidableEq, Repr

/-- What a call leaves behind: the text it appended to the sink, the format state, and how it was
left.  After an exception `ostr` is the text appended before the throw. -/
structure Effect (β : Type) where
  ostr : Ostr
  state : FormatState
  result : Completion β
deriving DecidableEq, Repr

/-- A formatting computation, run from an incoming `FormatState`. -/
def Fmt (β : Type) : Type := FormatState → Effect β

/-- Returning without any effect. -/
def Fmt.pure {β : Type} (v : β) : Fmt β := fun st => ⟨[], st, .returned v⟩

/-- Statement sequencing: `f` runs only if `x` returned; an exception of `x` ends the sequence with
the text appended so far. -/
def Fmt.bind {β γ : Type} (x : Fmt β) (f : β → Fmt γ) : Fmt γ := fun st =>
  match x st with
  | ⟨o, st1, .returned v⟩ =>
    match f v st1 with
    | ⟨o2, st2, r⟩ => ⟨o ++ o2, st2, r⟩
  | ⟨o, st1, .thrown e⟩ => ⟨o, st1, .thrown e⟩

instance : Monad Fmt where
  pure := Fmt.pure
  bind := Fmt.bind

/-- The statement `settings.ostr << text`. -/
def emit (text : Ostr) : Fmt Unit := fun st => ⟨text, st, .returned ()⟩

/-- The statement `throw Exception(message)`. -/
def throwException {β : Type} (message : String) : Fmt β := fun st => ⟨[], st, .thrown ⟨message⟩⟩

/-- The capabilities of the node types defined outside this file: `clone()` and
`formatImpl(settings, state, frame)`, which appends text, may update the shared state and may be
left by an exception. -/
class IAST (α : Type) where
  clone : α → α
  formatImpl : α → FormatSettings → FormatState → FormatStateStacked → Effect Unit

/-- The call `child->formatImpl(settings, state, frame)` on a sub-tree defined elsewhere: what the
sub-tree writes is appended, and an exception of the sub-tree leaves the caller too. -/
def callFormatImpl {α : Type} [IAST α] (child : α) (settings : FormatSettings)
    (frame : FormatStateStacked) : Fmt Unit := fun st =>
  IAST.formatImpl child settings st frame

/-- The expression `settings.one_line ? "" : std::string(4 * frame.indent, ' ')`. -/
def indent_str (settings : FormatSettings) (frame : FormatStateStacked) : Ostr :=
  if settings.one_line then str "" else List.replicate (4 * frame.indent) (Sym.ch ' ')

/-- The expression `settings.hilite ? hilite_keyword : ""`. -/
def hiliteKeywordIf (settings : FormatSettings) : Ostr :=
  if settings.hilite then [Sym.hilite_keyword] else str ""

/-- The expression `settings.hilite ? hilite_none : ""`. -/
def hiliteNoneIf (settings : FormatSettings) : Ostr :=
  if settings.hilite then [Sym.hilite_none] else str ""

/-! ## Data model -/

/-- The node `ASTTableExpression`: one data source with optional `FINAL` and `SAMPLE`. -/
structure ASTTableExpression (α : Type) where
  database_and_table_name : Option α
  table_function : Option α
  subquery : Option α
  final : Bool
  sample_size : Option α
  sample_offset : Option α
  children : List α
deriving DecidableEq, Repr

/-- Locality of a join. -/
inductive Locality where
  | Unspecified
  | Local
  | Global
deriving DecidableEq, Repr

/-- Strictness of a join. -/
inductive Strictness where
  | Unspecified
  | Any
  | All
deriving DecidableEq, Repr

/-- Modelled from the spec: the enumeration `ASTTableJoin::Kind` is declared in the header.  The
seven kinds the `switch` in `formatImplBeforeTable` names, and `Other raw` for any other stored
value, which reaches the `default` arm. -/
inductive Kind where
  | Inner
  | Left
  | Right
  | Full
  | Cross
  | Comma
  | Anti
  | Other (raw : Nat)
deriving DecidableEq, Repr

/-- The node `ASTTableJoin`: how a table expression joins the preceding one. -/
structure ASTTableJoin (α : Type) where
  locality : Locality
  strictness : Strictness
  kind : Kind
  using_expression_list : Option α
  on_expression : Option α
  children : List α
deriving DecidableEq, Repr

/-- An entry of the children collection of `ASTTablesInSelectQueryElement`. -/
inductive ElementChild (α : Type) where
  | table_join (j : ASTTableJoin α)
  | table_expression (e : ASTTableExpression α)
deriving DecidableEq, Repr

/-- The node `ASTTablesInSelectQueryElement`: an optional join descriptor and a table expression. -/
structure ASTTablesInSelectQueryElement (α : Type) where
  table_join : Option (ASTTableJoin α)
  table_expression : Option (ASTTableExpression α)
  children : List (ElementChild α)
deriving DecidableEq, Repr

/-- The node `ASTTablesInSelectQuery`: its elements are its children collection. -/
structure ASTTablesInSelectQuery (α : Type) where
  children : List (ASTTablesInSelectQueryElement α)
deriving DecidableEq, Repr

/-! ## `clone` -/

/-- `ASTTableExpression::clone`: a copy of the node with `children` cleared, then `CLONE(member)`
for the five optional fields in order; each populated field is replaced by its clone, which is
also pushed onto `children`. -/
def ASTTableExpression.clone {α : Type} [IAST α] (self : ASTTableExpression α) :
    ASTTableExpression α :=
  let res : ASTTableExpression α := { self with children := [] }
  let res : ASTTableExpression α :=
    match self.database_and_table_name with
    | some member =>
      { res with database_and_table_name := some (IAST.clone member),
                 children := res.children ++ [IAST.clone member] }
    | none => res
  let res : ASTTableExpression α :=
    match self.table_function with
    | some member =>
      { res with table_function := some (IAST.clone member),
                 children := res.children ++ [IAST.clone member] }
    | none => res
  let res : ASTTableExpression α :=
    match self.subquery with
    | some member =>
      { res with subquery := some (IAST.clone member),
                 children := res.children ++ [IAST.clone member] }
    | none => res
  let res : ASTTableExpression α :=
    match self.sample_size with
    | some member =>
      { res with sample_size := some (IAST.clone member),
                 children := res.children ++ [IAST.clone member] }
    | none => res
  match self.sample_offset with
  | some member =>
    { res with sample_offset := some (IAST.clone member),
               children := res.children ++ [IAST.clone member] }
  | none => res

/-- `ASTTableJoin::clone`: a copy with `children` cleared, then `CLONE(using_expression_list)` and
`CLONE(on_expression)`. -/
def ASTTableJoin.clone {α : Type} [IAST α] (self : ASTTableJoin α) : ASTTableJoin α :=
  let res : ASTTableJoin α := { self with children := [] }
  let res : ASTTableJoin α :=
    match self.using_expression_list with
    | some member =>
      { res with using_expression_list := some (IAST.clone member),
                 children := res.children ++ [IAST.clone member] }
    | none => res
  match self.on_expression with
  | some member =>
    { res with on_expression := some (IAST.clone member),
               children := res.children ++ [IAST.clone member] }
  | none => res

/-- `ASTTablesInSelectQueryElement::clone`: a copy with `children` cleared, then
`CLONE(table_join)` and `CLONE(table_expression)`. -/
def ASTTablesInSelectQueryElement.clone {α : Type} [IAST α]
    (self : ASTTablesInSelectQueryElement α) : ASTTablesInSelectQueryElement α :=
  let res : ASTTablesInSelectQueryElement α := { self with children := [] }
  let res : ASTTablesInSelectQueryElement α :=
    match self.table_join with
    | some member =>
      { res with table_join := some member.clone,
                 children := res.children ++ [ElementChild.table_join member.clone] }
    | none => res
  match self.table_expression with
  | some member =>
    { res with table_expression := some member.clone,
               children := res.children ++ [ElementChild.table_expression member.clone] }
  | none => res

/-- `ASTTablesInSelectQuery::clone`: a copy with `children` cleared, then the clone of every child
of the source appended in order. -/
def ASTTablesInSelectQuery.clone {α : Type} [IAST α] (self : ASTTablesInSelectQuery α) :
    ASTTablesInSelectQuery α :=
  { children := self.children.map fun child => child.clone }

/-! ## `formatImpl` -/

/-- `ASTTableExpression::formatImpl`. -/
def ASTTableExpression.formatImpl {α : Type} [IAST α] (self : ASTTableExpression α)
    (settings : FormatSettings) (frame : FormatStateStacked) : Fmt Unit := do
  match self.database_and_table_name, self.table_function, self.subquery with
  | some database_and_table_name, _, _ => callFormatImpl database_and_table_name settings frame
  | none, some table_function, _ => callFormatImpl table_function settings frame
  | none, none, some subquery => callFormatImpl subquery settings frame
  | none, none, none => pure ()
  if self.final then
    emit (hiliteKeywordIf settings ++ str settings.nl_or_ws ++ indent_str settings frame
      ++ str "FINAL" ++ hiliteNoneIf settings)
  match self.sample_size with
  | some sample_size =>
    emit (hiliteKeywordIf settings ++ str settings.nl_or_ws ++ indent_str settings frame
      ++ str "SAMPLE " ++ hiliteNoneIf settings)
    callFormatImpl sample_size settings frame
    match self.sample_offset with
    | some sample_offset =>
      emit (hiliteKeywordIf settings ++ [Sym.ch ' '] ++ str "OFFSET " ++ hiliteNoneIf settings)
      callFormatImpl sample_offset settings frame
    | none => pure ()
  | none => pure ()

/-- `ASTTableJoin::formatImplBeforeTable`. -/
def ASTTableJoin.formatImplBeforeTable {α : Type} (self : ASTTableJoin α)
    (settings : FormatSettings) (_frame : FormatStateStacked) : Fmt Unit := do
  emit (hiliteKeywordIf settings)
  match self.locality with
  | .Unspecified => pure ()
  | .Local => pure ()
  | .Global => emit (str "GLOBAL ")
  if self.kind ≠ .Cross ∧ self.kind ≠ .Comma then
    match self.strictness with
    | .Unspecified => pure ()
    | .Any => emit (str "ANY ")
    | .All => emit (str "ALL ")
  match self.kind with
  | .Inner => emit (str "INNER JOIN")
  | .Left => emit (str "LEFT JOIN")
  | .Right => emit (str "RIGHT JOIN")
  | .Full => emit (str "FULL OUTER JOIN")
  | .Cross => emit (str "CROSS JOIN")
  | .Comma => emit (str ",")
  | .Anti => emit (str "ANTI JOIN")
  | .Other _ => throwException "Join kind not supported"
  emit (hiliteNoneIf settings)

/-- `ASTTableJoin::formatImplAfterTable`. -/
def ASTTableJoin.formatImplAfterTable {α : Type} [IAST α] (self : ASTTableJoin α)
    (settings : FormatSettings) (frame : FormatStateStacked) : Fmt Unit := do
  let frame := { frame with need_parens := false }
  match self.using_expression_list, self.on_expression with
  | some using_expression_list, _ =>
    emit (hiliteKeywordIf settings ++ str "USING " ++ hiliteNoneIf settings)
    emit (str "(")
    callFormatImpl using_expression_list settings frame
    emit (str ")")
  | none, some on_expression =>
    emit (hiliteKeywordIf settings ++ str "ON " ++ hiliteNoneIf settings)
    callFormatImpl on_expression settings frame
  | none, none => pure ()

/-- `ASTTableJoin::formatImpl`, the standalone rendering. -/
def ASTTableJoin.formatImpl {α : Type} [IAST α] (self : ASTTableJoin α)
    (settings : FormatSettings) (frame : FormatStateStacked) : Fmt Unit := do
  self.formatImplBeforeTable settings frame
  emit (str " ... ")
  self.formatImplAfterTable settings frame

/-- `ASTTablesInSelectQueryElement::formatImpl`. -/
def ASTTablesInSelectQueryElement.formatImpl {α : Type} [IAST α]
    (self : ASTTablesInSelectQueryElement α) (settings : FormatSettings)
    (frame : FormatStateStacked) : Fmt Unit := do
  match self.table_expression with
  | some table_expression =>
    match self.table_join with
    | some table_join =>
      table_join.formatImplBeforeTable settings frame
      emit (str " ")
    | none => pure ()
    table_expression.formatImpl settings frame
    emit (str " ")
    match self.table_join with
    | some table_join => table_join.formatImplAfterTable settings frame
    | none => pure ()
  | none => pure ()

/-- The loop of `ASTTablesInSelectQuery::formatImpl` from iterator position `it` on;
`at_begin` is the test `it == children.begin()`. -/
def ASTTablesInSelectQuery.formatLoop {α : Type} [IAST α] (settings : FormatSettings)
    (frame : FormatStateStacked) :
    Bool → List (ASTTablesInSelectQueryElement α) → Fmt Unit
  | _, [] => pure ()
  | at_begin, element :: rest => do
    if ¬ at_begin then
      emit (str settings.nl_or_ws ++ indent_str settings frame)
    element.formatImpl settings frame
    ASTTablesInSelectQuery.formatLoop settings frame false rest

/-- `ASTTablesInSelectQuery::formatImpl`. -/
def ASTTablesInSelectQuery.formatImpl {α : Type} [IAST α] (self : ASTTablesInSelectQuery α)
    (settings : FormatSettings) (frame : FormatStateStacked) : Fmt Unit :=
  ASTTablesInSelectQuery.formatLoop settings frame true self.children

/-! ## Vocabulary of the statements -/

/-- The rendering of an optional sub-tree from state `st`: what its `formatImpl` does; no text,
the same state and a normal return when the field is absent. -/
def renderOpt {α : Type} [IAST α] (c : Option α) (settings : FormatSettings)
    (frame : FormatStateStacked) (st : FormatState) : Effect Unit :=
  match c with
  | some c => IAST.formatImpl c settings st frame
  | none => ⟨[], st, .returned ()⟩

/-- Effect `a` followed by `k`, run from the state `a` left, if `a` returned; `a` alone if `a`
was left by an exception. -/
def Effect.andThen (a : Effect Unit) (k : FormatState → Effect Unit) : Effect Unit :=
  match a.result with
  | .returned _ => ⟨a.ostr ++ (k a.state).ostr, (k a.state).state, (k a.state).result⟩
  | .thrown x => ⟨a.ostr, a.state, .thrown x⟩

/-- What a table expression does after its source, given the three keyword texts it writes: the
text `finalText` if `final` is set; then, if `sample_size` is populated, `sampleText` and the
rendering of `sample_size`, and if `sample_offset` is populated too, `offsetText` and its
rendering. A rendering that throws ends it. The three source fields do not occur. -/
def remainderAfterSource {α : Type} [IAST α] (final : Bool) (sample_size sample_offset : Option α)
    (finalText sampleText offsetText : Ostr) (settings : FormatSettings)
    (frame : FormatStateStacked) (st : FormatState) : Effect Unit :=
  match sample_size with
  | none => ⟨if final then finalText else [], st, .returned ()⟩
  | some size =>
    Effect.andThen ⟨(if final then finalText else []) ++ sampleText, st, .returned ()⟩ fun s1 =>
      Effect.andThen (IAST.formatImpl size settings s1 frame) fun s2 =>
        match sample_offset with
        | none => ⟨[], s2, .returned ()⟩
        | some offset =>
          Effect.andThen ⟨offsetText, s2, .returned ()⟩ fun s3 =>
            IAST.formatImpl offset settings s3 frame

/-- Spec, §4.2 (a): the locality token. -/
def specLocalityToken : Locality → String
  | .Global => "GLOBAL "
  | .Local => ""
  | .Unspecified => ""

/-- Spec, §4.2 (b): the strictness token. -/
def specStrictnessToken : Strictness → String
  | .Any => "ANY "
  | .All => "ALL "
  | .Unspecified => ""

/-- Spec, §4.2 (c): the kind token of each of the seven kinds; any other value has none. -/
def specKindToken : Kind → Option String
  | .Inner => some "INNER JOIN"
  | .Left => some "LEFT JOIN"
  | .Right => some "RIGHT JOIN"
  | .Full => some "FULL OUTER JOIN"
  | .Cross => some "CROSS JOIN"
  | .Comma => some ","
  | .Anti => some "ANTI JOIN"
  | .Other _ => none

/-- The texts enclosed by marker pairs: `markedSpansFrom none` scans for the next
`hilite_keyword`, `markedSpansFrom (some acc)` collects up to the next `hilite_none`. -/
def markedSpansFrom : Option Ostr → Ostr → List Ostr
  | _, [] => []
  | none, Sym.hilite_keyword :: rest => markedSpansFrom (some []) rest
  | none, _ :: rest => markedSpansFrom none rest
  | some acc, Sym.hilite_none :: rest => acc :: markedSpansFrom none rest
  | some acc, x :: rest => markedSpansFrom (some (acc ++ [x])) rest

/-- The texts enclosed between each `hilite_keyword` and the following `hilite_none`. -/
def markedSpans (out : Ostr) : List Ostr := markedSpansFrom none out

/-- The texts of the elements formatted one after the other, each from the state its predecessor
left. -/
def elementTexts {α : Type} [IAST α] (settings : FormatSettings) (frame : FormatStateStacked) :
    FormatState → List (ASTTablesInSelectQueryElement α) → List Ostr
  | _, [] => []
  | st, e :: rest =>
    (e.formatImpl settings frame st).ostr
      :: elementTexts settings frame (e.formatImpl settings frame st).state rest

/-- The state left after formatting the elements one after the other. -/
def elementsState {α : Type} [IAST α] (settings : FormatSettings) (frame : FormatStateStacked) :
    FormatState → List (ASTTablesInSelectQueryElement α) → FormatState
  | st, [] => st
  | st, e :: rest => elementsState settings frame (e.formatImpl settings frame st).state rest

/-! ## A concrete sub-tree type for evaluation -/

/-- A leaf sub-tree that renders as a fixed text and counts the rendering calls in the state. -/
structure Leaf where
  text : String
deriving DecidableEq, Repr

instance : IAST Leaf where
  clone := fun l => l
  formatImpl := fun l _ st _ => ⟨str l.text, ⟨st.token + 1⟩, .returned ()⟩

/-- A table expression naming the table `name`, with nothing else set. -/
def namedTable (name : String) : ASTTableExpression Leaf :=
  { database_and_table_name := some ⟨name⟩, table_function := none, subquery := none,
    final := false, sample_size := none, sample_offset := none, children := [⟨name⟩] }

/-- A join descriptor with no USING list and no ON predicate. -/
def bareJoin (locality : Locality) (strictness : Strictness) (kind : Kind) : ASTTableJoin Leaf :=
  { locality := locality, strictness := strictness, kind := kind,
    using_expression_list := none, on_expression := none, children := [] }

/-- An element built from an optional join and a table expression. -/
def elementOf (j : Option (ASTTableJoin Leaf)) (t : ASTTableExpression Leaf) :
    ASTTablesInSelectQueryElement Leaf :=
  { table_join := j, table_expression := some t,
    children := (j.map ElementChild.table_join).toList ++ [ElementChild.table_expression t] }

/-- Multi-line settings without highlighting, separator `"\n"`. -/
def multiLine : FormatSettings := { hilite := false, one_line := false, nl_or_ws := "\n" }

/-- Single-line settings without highlighting, separator `" "`. -/
def singleLine : FormatSettings := { hilite := false, one_line := true, nl_or_ws := " " }

/-- The outermost frame. -/
def topFrame : FormatStateStacked := { indent := 0, need_parens := false }

/-- A join descriptor with a USING list of one column. -/
def usingJoin (locality : Locality) (strictness : Strictness) (kind : Kind) (column : String) :
    ASTTableJoin Leaf :=
  { locality := locality, strictness := strictness, kind := kind,
    using_expression_list := some ⟨column⟩, on_expression := none, children := [⟨column⟩] }

/-- A join descriptor with an ON predicate. -/
def onJoin (locality : Locality) (strictness : Strictness) (kind : Kind) (predicate : String) :
    ASTTableJoin Leaf :=
  { locality := locality, strictness := strictness, kind := kind,
    using_expression_list := none, on_expression := some ⟨predicate⟩,
    children := [⟨predicate⟩] }

/-- The two-element FROM clause `t1`, then `t2` joined by `INNER JOIN ... USING (x)`. -/
def scenarioD : ASTTablesInSelectQuery Leaf :=
  { children :=
      [elementOf none (namedTable "t1"),
       elementOf (some (usingJoin .Unspecified .Unspecified .Inner "x")) (namedTable "t2")] }

/-- The table `name` with `FINAL`, no sample. -/
def finalTable (name : String) : ASTTableExpression Leaf :=
  { database_and_table_name := some ⟨name⟩, table_function := none, subquery := none,
    final := true, sample_size := none, sample_offset := none, children := [⟨name⟩] }

/-- The table `name` with `FINAL` and `SAMPLE size OFFSET offset`. -/
def sampledTable (name size offset : String) : ASTTableExpression Leaf :=
  { database_and_table_name := some ⟨name⟩, table_function := none, subquery := none,
    final := true, sample_size := some ⟨size⟩, sample_offset := some ⟨offset⟩,
    children := [⟨name⟩, ⟨size⟩, ⟨offset⟩] }

/-- A table expression with all three source variants populated. -/
def threeSources : ASTTableExpression Leaf :=
  { database_and_table_name := some ⟨"t"⟩, table_function := some ⟨"f()"⟩,
    subquery := some ⟨"(SELECT 1)"⟩, final := false, sample_size := none, sample_offset := none,
    children := [⟨"t"⟩, ⟨"f()"⟩, ⟨"(SELECT 1)"⟩] }

/-- Single-line settings with highlighting, separator `" "`. -/
def singleLineHilite : FormatSettings := { hilite := true, one_line := true, nl_or_ws := " " }

/-- Three elements, the second with a join kind outside the seven named ones. -/
def brokenChain : ASTTablesInSelectQuery Leaf :=
  { children :=
      [elementOf none (namedTable "t1"),
       elementOf (some (bareJoin .Unspecified .Unspecified (.Other 0))) (namedTable "t2"),
       elementOf (some (bareJoin .Unspecified .Unspecified .Cross)) (namedTable "t3")] }

/-- The participating children a table expression should hold: its populated optional fields in
the order table reference, table function, subquery, sample size, sample offset. -/
def ASTTableExpression.populatedFields {α : Type} (t : ASTTableExpression α) : List α :=
  [t.database_and_table_name, t.table_function, t.subquery, t.sample_size,
    t.sample_offset].reduceOption

/-- The participating children a join should hold: its populated optional fields in the order
`using_expression_list`, `on_expression`. -/
def ASTTableJoin.populatedFields {α : Type} (j : ASTTableJoin α) : List α :=
  [j.using_expression_list, j.on_expression].reduceOption

/-- The participating children an element should hold: its populated optional fields in the order
`table_join`, `table_expression`. -/
def ASTTablesInSelectQueryElement.populatedFields {α : Type}
    (e : ASTTablesInSelectQueryElement α) : List (ElementChild α) :=
  [e.table_join.map ElementChild.table_join,
    e.table_expression.map ElementChild.table_expression].reduceOption

/-- The seven kinds the `switch` of `formatImplBeforeTable` names. -/
def namedKinds : List Kind :=
  [Kind.Inner, Kind.Left, Kind.Right, Kind.Full, Kind.Cross, Kind.Comma, Kind.Anti]

/-- A second concrete sub-tree type: its clone is marked as a copy, and renders like its source. -/
structure Tagged where
  text : String
  copied : Bool
deriving DecidableEq, Repr

instance : IAST Tagged where
  clone := fun l => { l with copied := true }
  formatImpl := fun l _ st _ => ⟨str l.text, ⟨st.token + 1⟩, .returned ()⟩

/-- A table expression over `Tagged` leaves whose children collection is out of step with its
fields: table `t` with `SAMPLE 1/10`, and a children collection holding an unrelated entry. -/
def staleTable : ASTTableExpression Tagged :=
  { database_and_table_name := some ⟨"t", false⟩, table_function := none, subquery := none,
    final := true, sample_size := some ⟨"1/10", false⟩, sample_offset := none,
    children := [⟨"old", false⟩] }

/-- A join over `Tagged` leaves with an ON predicate and an empty children collection. -/
def staleJoin : ASTTableJoin Tagged :=
  { locality := .Global, strictness := .All, kind := .Left,
    using_expression_list := none, on_expression := some ⟨"a = b", false⟩, children := [] }

/-- An element over `Tagged` leaves built from `staleJoin` and `staleTable`, without children. -/
def staleElement : ASTTablesInSelectQueryElement Tagged :=
  { table_join := some staleJoin, table_expression := some staleTable, children := [] }

/-- The table `t` over `Leaf` with an empty children collection. -/
def tableWithoutChildren : ASTTableExpression Leaf :=
  { database_and_table_name := some ⟨"t"⟩, table_function := none, subquery := none,
    final := false, sample_size := none, sample_offset := none, children := [] }

/-- An element with a join of a kind outside the seven named ones and no table expression. -/
def joinOnlyElement : ASTTablesInSelectQueryElement Leaf :=
  { table_join := some (bareJoin .Global .Any (.Other 0)), table_expression := none,
    children := [ElementChild.table_join (bareJoin .Global .Any (.Other 0))] }

/-- A table expression with a sample offset and no sample size. -/
def offsetWithoutSize : ASTTableExpression Leaf :=
  { database_and_table_name := some ⟨"t"⟩, table_function := none, subquery := none,
    final := true, sample_size := none, sample_offset := some ⟨"5"⟩,
    children := [⟨"t"⟩, ⟨"5"⟩] }

/-- An element and the join and table expression it owns have children collections listing
exactly their populated fields. -/
def ASTTablesInSelectQueryElement.inSync {α : Type} (e : ASTTablesInSelectQueryElement α) :
    Prop :=
  e.children = e.populatedFields
  ∧ (∀ j, e.table_join = some j → j.children = j.populatedFields)
  ∧ (∀ t, e.table_expression = some t → t.children = t.populatedFields)

/-- The clone of an entry of an element's children collection. -/
def ElementChild.clone {α : Type} [IAST α] : ElementChild α → ElementChild α
  | .table_join j => .table_join j.clone
  | .table_expression t => .table_expression t.clone

/-- A FROM clause nested below a table expression or a join, as it is through a subquery: as a
sub-tree it is cloned and formatted by this file's own `clone` and `formatImpl`, so its rendering
throws when one of its joins has a kind outside the seven named ones. -/
instance : IAST (ASTTablesInSelectQuery Leaf) where
  clone := fun q => q.clone
  formatImpl := fun q settings st frame => q.formatImpl settings frame st

/-- A nested FROM clause whose rendering writes `GLOBAL ANY ` and throws. -/
def failingSubquery : ASTTablesInSelectQuery Leaf :=
  { children := [elementOf (some (bareJoin .Global .Any (.Other 0))) (namedTable "t")] }

/-- A nested FROM clause whose rendering writes `u ` and returns. -/
def plainSubquery : ASTTablesInSelectQuery Leaf :=
  { children := [elementOf none (namedTable "u")] }

/-- A table expression with `FINAL` whose subquery is `failingSubquery`. -/
def tableOverFailingSubquery : ASTTableExpression (ASTTablesInSelectQuery Leaf) :=
  { database_and_table_name := none, table_function := none, subquery := some failingSubquery,
    final := true, sample_size := none, sample_offset := none, children := [failingSubquery] }

/-- A table expression with `FINAL` whose subquery is `plainSubquery`. -/
def tableOverPlainSubquery : ASTTableExpression (ASTTablesInSelectQuery Leaf) :=
  { database_and_table_name := none, table_function := none, subquery := some plainSubquery,
    final := true, sample_size := none, sample_offset := none, children := [plainSubquery] }

/-- A join of kind Inner whose USING list is rendered by `failingSubquery`. -/
def joinOverFailingSubquery : ASTTableJoin (ASTTablesInSelectQuery Leaf) :=
  { locality := .Unspecified, strictness := .Unspecified, kind := .Inner,
    using_expression_list := some failingSubquery, on_expression := none,
    children := [failingSubquery] }

/-- A join of kind Inner whose USING list is rendered by `plainSubquery`. -/
def joinOverPlainSubquery : ASTTableJoin (ASTTablesInSelectQuery Leaf) :=
  { locality := .Unspecified, strictness := .Unspecified, kind := .Inner,
    using_expression_list := some plainSubquery, on_expression := none,
    children := [plainSubquery] }

/-- A join of kind Inner without USING list and ON predicate, over nested FROM clauses. -/
def innerJoinNested : ASTTableJoin (ASTTablesInSelectQuery Leaf) :=
  { locality := .Unspecified, strictness := .Unspecified, kind := .Inner,
    using_expression_list := none, on_expression := none, children := [] }

/-- An element with the join `innerJoinNested` around `tableOverFailingSubquery`. -/
def elementOverFailingSubquery : ASTTablesInSelectQueryElement (ASTTablesInSelectQuery Leaf) :=
  { table_join := some innerJoinNested, table_expression := some tableOverFailingSubquery,
    children := [ElementChild.table_join innerJoinNested,
      ElementChild.table_expression tableOverFailingSubquery] }

/-- An element without join around `tableOverFailingSubquery`. -/
def bareElementOverFailingSubquery :
    ASTTablesInSelectQueryElement (ASTTablesInSelectQuery Leaf) :=
  { table_join := none, table_expression := some tableOverFailingSubquery,
    children := [ElementChild.table_expression tableOverFailingSubquery] }

/-! ## Auxiliary facts -/

theorem Fmt.bind_eq {β γ : Type} (x : Fmt β) (f : β → Fmt γ) : (x >>= f) = Fmt.bind x f := rfl

theorem Fmt.pure_eq {β : Type} (v : β) : (Pure.pure v : Fmt β) = Fmt.pure v := rfl

/-- Sequencing after a call that returned. -/
theorem Fmt.bind_returned {β γ : Type} (x : Fmt β) (f : β → Fmt γ) (st : FormatState) (v : β)
    (h : (x st).result = .returned v) :
    Fmt.bind x f st =
      ⟨(x st).ostr ++ (f v (x st).state).ostr, (f v (x st).state).state,
        (f v (x st).state).result⟩ := by
  unfold Fmt.bind
  rcases hx : x st with ⟨o, s1, r⟩
  rw [hx] at h
  simp only at h
  subst h
  rfl

/-- Sequencing after a call that threw. -/
theorem Fmt.bind_thrown {β γ : Type} (x : Fmt β) (f : β → Fmt γ) (st : FormatState)
    (e : Exception) (h : (x st).result = .thrown e) :
    Fmt.bind x f st = ⟨(x st).ostr, (x st).state, .thrown e⟩ := by
  unfold Fmt.bind
  rcases hx : x st with ⟨o, s1, r⟩
  rw [hx] at h
  simp only at h
  subst h
  rfl

/-- Statement sequencing, seen on the effects. -/
theorem Fmt.bind_apply_andThen (x : Fmt Unit) (f : Unit → Fmt Unit) (st : FormatState) :
    Fmt.bind x f st = (x st).andThen (f ()) := by
  unfold Fmt.bind Effect.andThen
  rcases x st with ⟨o, s1, r⟩
  cases r <;> rfl

/-- An effect that returned, followed by `k`. -/
theorem Effect.andThen_mk_returned (o : Ostr) (s : FormatState) (v : Unit)
    (k : FormatState → Effect Unit) :
    Effect.andThen ⟨o, s, .returned v⟩ k = ⟨o ++ (k s).ostr, (k s).state, (k s).result⟩ := rfl

/-- An effect that threw is not followed by anything. -/
theorem Effect.andThen_mk_thrown (o : Ostr) (s : FormatState) (x : Exception)
    (k : FormatState → Effect Unit) :
    Effect.andThen ⟨o, s, .thrown x⟩ k = ⟨o, s, .thrown x⟩ := rfl

/-- `andThen` after an effect known to have returned. -/
theorem Effect.andThen_of_returned (a : Effect Unit) (k : FormatState → Effect Unit)
    (h : a.result = .returned ()) :
    a.andThen k = ⟨a.ostr ++ (k a.state).ostr, (k a.state).state, (k a.state).result⟩ := by
  rcases a with ⟨o, s, r⟩
  simp only at h
  subst h
  rfl

/-- `andThen` after an effect known to have thrown. -/
theorem Effect.andThen_of_thrown (a : Effect Unit) (k : FormatState → Effect Unit)
    (x : Exception) (h : a.result = .thrown x) : a.andThen k = a := by
  rcases a with ⟨o, s, r⟩
  simp only at h
  subst h
  rfl

/-- Text written before an effect followed by `k` can be counted to the effect. -/
theorem Effect.prepend_andThen (o : Ostr) (a : Effect Unit) (k : FormatState → Effect Unit) :
    (⟨o ++ (a.andThen k).ostr, (a.andThen k).state, (a.andThen k).result⟩ : Effect Unit)
      = Effect.andThen ⟨o ++ a.ostr, a.state, a.result⟩ k := by
  rcases a with ⟨oa, s, r⟩
  cases r <;> simp [Effect.andThen]

/-- Everything `ASTTableExpression::formatImpl` does, for any settings: the rendering of the first
populated source variant, followed, if that returned, by the `FINAL` and `SAMPLE` parts. -/
theorem ASTTableExpression.formatImpl_eq {α : Type} [IAST α] (t : ASTTableExpression α)
    (settings : FormatSettings) (frame : FormatStateStacked) (st : FormatState) :
    t.formatImpl settings frame st =
      (renderOpt (t.database_and_table_name <|> t.table_function <|> t.subquery)
          settings frame st).andThen
        (remainderAfterSource t.final t.sample_size t.sample_offset
          (hiliteKeywordIf settings ++ str settings.nl_or_ws ++ indent_str settings frame
            ++ str "FINAL" ++ hiliteNoneIf settings)
          (hiliteKeywordIf settings ++ str settings.nl_or_ws ++ indent_str settings frame
            ++ str "SAMPLE " ++ hiliteNoneIf settings)
          (hiliteKeywordIf settings ++ str " OFFSET " ++ hiliteNoneIf settings)
          settings frame) := by
  rcases t with ⟨dbt, tf, sq, final, ss, so, ch⟩
  have hrem : ∀ s,
      ((do
          if final then
            emit (hiliteKeywordIf settings ++ str settings.nl_or_ws ++ indent_str settings frame
              ++ str "FINAL" ++ hiliteNoneIf settings)
          match ss with
          | some sample_size =>
            emit (hiliteKeywordIf settings ++ str settings.nl_or_ws ++ indent_str settings frame
              ++ str "SAMPLE " ++ hiliteNoneIf settings)
            callFormatImpl sample_size settings frame
            match so with
            | some sample_offset =>
              emit (hiliteKeywordIf settings ++ [Sym.ch ' '] ++ str "OFFSET "
                ++ hiliteNoneIf settings)
              callFormatImpl sample_offset settings frame
            | none => pure ()
          | none => pure ()) : Fmt Unit) s
        = remainderAfterSource final ss so
          (hiliteKeywordIf settings ++ str settings.nl_or_ws ++ indent_str settings frame
            ++ str "FINAL" ++ hiliteNoneIf settings)
          (hiliteKeywordIf settings ++ str settings.nl_or_ws ++ indent_str settings frame
            ++ str "SAMPLE " ++ hiliteNoneIf settings)
          (hiliteKeywordIf settings ++ str " OFFSET " ++ hiliteNoneIf settings)
          settings frame s := by
    intro s
    cases ss with
    | none =>
      cases final <;> cases so <;>
        simp [remainderAfterSource, Fmt.bind_eq, Fmt.pure_eq, Fmt.bind, Fmt.pure, emit]
    | some size =>
      rcases h1 : IAST.formatImpl size settings s frame with ⟨o1, s1, r1⟩
      cases r1 with
      | thrown x =>
        cases final <;> cases so <;>
          simp [remainderAfterSource, Fmt.bind_eq, Fmt.pure_eq, Fmt.bind, Fmt.pure, emit,
            callFormatImpl, Effect.andThen, h1, str]
      | returned v =>
        cases so with
        | none =>
          cases final <;>
            simp [remainderAfterSource, Fmt.bind_eq, Fmt.pure_eq, Fmt.bind, Fmt.pure, emit,
              callFormatImpl, Effect.andThen, h1, str]
        | some offset =>
          rcases h2 : IAST.formatImpl offset settings s1 frame with ⟨o2, s2, r2⟩
          cases final <;>
            simp [remainderAfterSource, Fmt.bind_eq, Fmt.pure_eq, Fmt.bind, Fmt.pure, emit,
              callFormatImpl, Effect.andThen, h1, h2, str]
  cases dbt <;> cases tf <;> cases sq <;>
    (simp only [ASTTableExpression.formatImpl, Fmt.bind_eq, Fmt.pure_eq, Fmt.bind_apply_andThen]
     exact congrArg₂ Effect.andThen rfl (funext hrem))

/-- The format of a table expression when the sub-trees it renders return: the text in full. -/
theorem ASTTableExpression.formatImpl_of_returned {α : Type} [IAST α]
    (t : ASTTableExpression α) (settings : FormatSettings) (frame : FormatStateStacked)
    (st : FormatState)
    (h1 : (renderOpt (t.database_and_table_name <|> t.table_function <|> t.subquery)
            settings frame st).result = .returned ())
    (h2 : (renderOpt t.sample_size settings frame
            (renderOpt (t.database_and_table_name <|> t.table_function <|> t.subquery)
              settings frame st).state).result = .returned ())
    (h3 : t.sample_size.isSome →
          (renderOpt t.sample_offset settings frame
            (renderOpt t.sample_size settings frame
              (renderOpt (t.database_and_table_name <|> t.table_function <|> t.subquery)
                settings frame st).state).state).result = .returned ()) :
    t.formatImpl settings frame st =
      ⟨(renderOpt (t.database_and_table_name <|> t.table_function <|> t.subquery)
            settings frame st).ostr
        ++ (if t.final then
              hiliteKeywordIf settings ++ str settings.nl_or_ws ++ indent_str settings frame
                ++ str "FINAL" ++ hiliteNoneIf settings
            else [])
        ++ (if t.sample_size.isSome then
              hiliteKeywordIf settings ++ str settings.nl_or_ws ++ indent_str settings frame
                ++ str "SAMPLE " ++ hiliteNoneIf settings
                ++ (renderOpt t.sample_size settings frame
                      (renderOpt (t.database_and_table_name <|> t.table_function <|> t.subquery)
                        settings frame st).state).ostr
                ++ (if t.sample_offset.isSome then
                      hiliteKeywordIf settings ++ str " OFFSET " ++ hiliteNoneIf settings
                        ++ (renderOpt t.sample_offset settings frame
                              (renderOpt t.sample_size settings frame
                                (renderOpt
                                  (t.database_and_table_name <|> t.table_function <|> t.subquery)
                                  settings frame st).state).state).ostr
                    else [])
            else []),
       if t.sample_size.isSome then
         (renderOpt t.sample_offset settings frame
            (renderOpt t.sample_size settings frame
              (renderOpt (t.database_and_table_name <|> t.table_function <|> t.subquery)
                settings frame st).state).state).state
       else
         (renderOpt (t.database_and_table_name <|> t.table_function <|> t.subquery)
            settings frame st).state,
       .returned ()⟩ := by
  rw [ASTTableExpression.formatImpl_eq, Effect.andThen_of_returned _ _ h1]
  rcases t with ⟨dbt, tf, sq, final, ss, so, ch⟩
  generalize renderOpt (dbt <|> tf <|> sq) settings frame st = src at h2 h3 ⊢
  cases ss with
  | none => cases final <;> simp [remainderAfterSource]
  | some size =>
    simp only [renderOpt] at h2 h3
    have h3' := h3 rfl
    rcases hsz : IAST.formatImpl size settings src.state frame with ⟨o1, s1, r1⟩
    rw [hsz] at h2 h3'
    simp only at h2 h3'
    subst h2
    cases so with
    | none =>
      cases final <;>
        simp [remainderAfterSource, renderOpt, hsz, Effect.andThen]
    | some offset =>
      rcases hof : IAST.formatImpl offset settings s1 frame with ⟨o2, s2, r2⟩
      simp only [hof] at h3'
      subst h3'
      cases final <;>
        simp [remainderAfterSource, renderOpt, hsz, hof, Effect.andThen]

/-- Everything `ASTTableJoin::formatImplAfterTable` does, for any settings; the closing
parenthesis of the USING form is written only if the rendering of the list returned. -/
theorem ASTTableJoin.formatImplAfterTable_eq {α : Type} [IAST α] (j : ASTTableJoin α)
    (settings : FormatSettings) (frame : FormatStateStacked) (st : FormatState) :
    j.formatImplAfterTable settings frame st =
      match j.using_expression_list, j.on_expression with
      | some u, _ =>
        Effect.andThen
          ⟨hiliteKeywordIf settings ++ str "USING " ++ hiliteNoneIf settings ++ str "("
              ++ (IAST.formatImpl u settings st { frame with need_parens := false }).ostr,
            (IAST.formatImpl u settings st { frame with need_parens := false }).state,
            (IAST.formatImpl u settings st { frame with need_parens := false }).result⟩
          fun s => ⟨str ")", s, .returned ()⟩
      | none, some o =>
        ⟨hiliteKeywordIf settings ++ str "ON " ++ hiliteNoneIf settings
            ++ (IAST.formatImpl o settings st { frame with need_parens := false }).ostr,
          (IAST.formatImpl o settings st { frame with need_parens := false }).state,
          (IAST.formatImpl o settings st { frame with need_parens := false }).result⟩
      | none, none => ⟨[], st, .returned ()⟩ := by
  rcases j with ⟨loc, s, k, u, o, ch⟩
  cases u with
  | some u =>
    rcases h : IAST.formatImpl u settings st { frame with need_parens := false } with ⟨o1, s1, r1⟩
    cases r1 <;>
      simp [ASTTableJoin.formatImplAfterTable, Fmt.bind_eq, Fmt.pure_eq, Fmt.bind, Fmt.pure,
        emit, callFormatImpl, Effect.andThen, h, str]
  | none =>
    cases o with
    | some o =>
      rcases h : IAST.formatImpl o settings st { frame with need_parens := false } with
        ⟨o1, s1, r1⟩
      cases r1 <;>
        simp [ASTTableJoin.formatImplAfterTable, Fmt.bind_eq, Fmt.pure_eq, Fmt.bind, Fmt.pure,
          emit, callFormatImpl, h, str]
    | none => rfl

/-- An element with a table expression and no join: the table expression, then, if it returned,
one space. -/
theorem ASTTablesInSelectQueryElement.formatImpl_no_join {α : Type} [IAST α]
    (e : ASTTablesInSelectQueryElement α) (t : ASTTableExpression α) (settings : FormatSettings)
    (frame : FormatStateStacked) (st : FormatState)
    (hj : e.table_join = none) (ht : e.table_expression = some t) :
    e.formatImpl settings frame st =
      (t.formatImpl settings frame st).andThen fun s => ⟨str " ", s, .returned ()⟩ := by
  rcases e with ⟨ej, et, ech⟩
  simp only at hj ht
  subst hj ht
  rcases hT : t.formatImpl settings frame st with ⟨ot, s1, rt⟩
  cases rt <;>
    simp [ASTTablesInSelectQueryElement.formatImpl, Fmt.bind_eq, Fmt.pure_eq, Fmt.bind, Fmt.pure,
      emit, Effect.andThen, hT]

/-- An element with a table expression and a join whose before-table phase throws: the element is
left by that exception, with the text the phase wrote. -/
theorem ASTTablesInSelectQueryElement.formatImpl_join_thrown {α : Type} [IAST α]
    (e : ASTTablesInSelectQueryElement α) (j : ASTTableJoin α) (t : ASTTableExpression α)
    (settings : FormatSettings) (frame : FormatStateStacked) (st : FormatState)
    (hj : e.table_join = some j) (ht : e.table_expression = some t) (x : Exception)
    (hb : (j.formatImplBeforeTable settings frame st).result = .thrown x) :
    e.formatImpl settings frame st =
      ⟨(j.formatImplBeforeTable settings frame st).ostr,
        (j.formatImplBeforeTable settings frame st).state, .thrown x⟩ := by
  rcases e with ⟨ej, et, ech⟩
  simp only at hj ht
  subst hj ht
  rcases hB : j.formatImplBeforeTable settings frame st with ⟨ob, sb, rb⟩
  rw [hB] at hb
  simp only at hb
  subst hb
  simp [ASTTablesInSelectQueryElement.formatImpl, Fmt.bind_eq, Fmt.pure_eq, Fmt.bind, emit, hB]

/-- An element with a table expression and a join, when the before-table phase and the table
expression return: both texts with their spaces, then whatever the after-table phase does. -/
theorem ASTTablesInSelectQueryElement.formatImpl_join {α : Type} [IAST α]
    (e : ASTTablesInSelectQueryElement α) (j : ASTTableJoin α) (t : ASTTableExpression α)
    (settings : FormatSettings) (frame : FormatStateStacked) (st : FormatState)
    (hj : e.table_join = some j) (ht : e.table_expression = some t)
    (hbr : (j.formatImplBeforeTable settings frame st).result = .returned ())
    (htr : (t.formatImpl settings frame
              (j.formatImplBeforeTable settings frame st).state).result = .returned ()) :
    e.formatImpl settings frame st =
      ⟨(j.formatImplBeforeTable settings frame st).ostr ++ str " "
          ++ (t.formatImpl settings frame (j.formatImplBeforeTable settings frame st).state).ostr
          ++ str " "
          ++ (j.formatImplAfterTable settings frame
                (t.formatImpl settings frame
                  (j.formatImplBeforeTable settings frame st).state).state).ostr,
        (j.formatImplAfterTable settings frame
          (t.formatImpl settings frame (j.formatImplBeforeTable settings frame st).state).state).state,
        (j.formatImplAfterTable settings frame
          (t.formatImpl settings frame
            (j.formatImplBeforeTable settings frame st).state).state).result⟩ := by
  rcases e with ⟨ej, et, ech⟩
  simp only at hj ht
  subst hj ht
  rcases hB : j.formatImplBeforeTable settings frame st with ⟨ob, sb, rb⟩
  rw [hB] at hbr htr
  simp only at hbr htr
  subst hbr
  rcases hT : t.formatImpl settings frame sb with ⟨ot, s1, rt⟩
  rw [hT] at htr
  simp only at htr
  subst htr
  rcases hA : j.formatImplAfterTable settings frame s1 with ⟨oa, s2, ra⟩
  simp [ASTTablesInSelectQueryElement.formatImpl, Fmt.bind_eq, Fmt.pure_eq, Fmt.bind, emit,
    hB, hT, hA]

/-- Everything `ASTTableJoin::formatImplBeforeTable` does: for a kind with a token the whole text,
for any other kind the text written before the `default` arm throws. -/
theorem ASTTableJoin.formatImplBeforeTable_eq {α : Type} (j : ASTTableJoin α) (settings : FormatSettings)
    (frame : FormatStateStacked) (st : FormatState) :
    j.formatImplBeforeTable settings frame st =
      match specKindToken j.kind with
      | some tok =>
        ⟨hiliteKeywordIf settings ++ str (specLocalityToken j.locality)
            ++ (if j.kind = .Cross ∨ j.kind = .Comma then []
                else str (specStrictnessToken j.strictness))
            ++ str tok ++ hiliteNoneIf settings,
          st, .returned ()⟩
      | none =>
        ⟨hiliteKeywordIf settings ++ str (specLocalityToken j.locality)
            ++ str (specStrictnessToken j.strictness),
          st, .thrown ⟨"Join kind not supported"⟩⟩ := by
  rcases j with ⟨loc, s, k, u, o, ch⟩
  cases loc <;> cases s <;> cases k <;>
    simp [ASTTableJoin.formatImplBeforeTable, Fmt.bind_eq, Fmt.pure_eq, Fmt.bind, Fmt.pure, emit,
      throwException, specKindToken, specLocalityToken, specStrictnessToken, str]

/-- An element without a table expression does nothing. -/
theorem ASTTablesInSelectQueryElement.formatImpl_absent {α : Type} [IAST α]
    (e : ASTTablesInSelectQueryElement α) (settings : FormatSettings)
    (frame : FormatStateStacked) (st : FormatState) (ht : e.table_expression = none) :
    e.formatImpl settings frame st = ⟨[], st, .returned ()⟩ := by
  rcases e with ⟨ej, et, ech⟩
  simp only at ht
  subst ht
  rfl

/-- The before-table phase of a join with one of the seven named kinds returns and leaves the
state alone. -/
theorem ASTTableJoin.formatImplBeforeTable_returned {α : Type} (j : ASTTableJoin α)
    (settings : FormatSettings) (frame : FormatStateStacked) (st : FormatState)
    (hk : ∀ raw, j.kind ≠ Kind.Other raw) :
    (j.formatImplBeforeTable settings frame st).result = .returned ()
    ∧ (j.formatImplBeforeTable settings frame st).state = st := by
  rw [ASTTableJoin.formatImplBeforeTable_eq]
  rcases j with ⟨loc, s, k, u, o, ch⟩
  cases k <;> first | exact ⟨rfl, rfl⟩ | exact absurd rfl (hk _)

/-- The loop of `ASTTablesInSelectQuery::formatImpl` when every element returns: the element texts
with the separator between them, and before the first one unless the loop is at its start. -/
theorem ASTTablesInSelectQuery.formatLoop_eq {α : Type} [IAST α] (settings : FormatSettings)
    (frame : FormatStateStacked) (es : List (ASTTablesInSelectQueryElement α))
    (hret : ∀ e ∈ es, ∀ s, (e.formatImpl settings frame s).result = .returned ()) :
    ∀ (at_begin : Bool) (st : FormatState),
      ASTTablesInSelectQuery.formatLoop settings frame at_begin es st =
        ⟨(if at_begin || es.isEmpty then [] else str settings.nl_or_ws ++ indent_str settings frame)
            ++ List.intercalate (str settings.nl_or_ws ++ indent_str settings frame)
                (elementTexts settings frame st es),
          elementsState settings frame st es, .returned ()⟩ := by
  induction es with
  | nil => intro b st; simp [ASTTablesInSelectQuery.formatLoop, elementTexts, elementsState,
      Fmt.pure_eq, Fmt.pure, List.intercalate]
  | cons e rest ih =>
    intro b st
    have he := hret e (List.mem_cons_self _ _) st
    have ih2 := ih (fun e2 h2 => hret e2 (List.mem_cons_of_mem _ h2)) false
      (e.formatImpl settings frame st).state
    rcases hE : e.formatImpl settings frame st with ⟨oe, s1, re⟩
    rw [hE] at he ih2
    simp only at he ih2
    subst he
    cases rest with
    | nil =>
      cases b <;>
        simp [ASTTablesInSelectQuery.formatLoop, elementTexts, elementsState, Fmt.bind_eq,
          Fmt.pure_eq, Fmt.bind, Fmt.pure, emit, hE, List.intercalate]
    | cons e2 r2 =>
      cases b <;>
        simp [ASTTablesInSelectQuery.formatLoop, elementTexts, elementsState, Fmt.bind_eq,
          Fmt.pure_eq, Fmt.bind, Fmt.pure, emit, hE, List.intercalate] at ih2 ⊢ <;>
        simp [ih2]

/-- Ordinary text holds no `hilite_keyword`. -/
theorem hilite_keyword_not_mem_str (s : String) : Sym.hilite_keyword ∉ str s := by
  simp [str]

/-- Ordinary text holds no `hilite_none`. -/
theorem hilite_none_not_mem_str (s : String) : Sym.hilite_none ∉ str s := by
  simp [str]

/-- A symbol written neither by an effect nor by what follows it is not in their sequence. -/
theorem not_mem_andThen_ostr (x : Sym) (a : Effect Unit) (k : FormatState → Effect Unit)
    (ha : x ∉ a.ostr) (hk : ∀ s, x ∉ (k s).ostr) : x ∉ (a.andThen k).ostr := by
  rcases a with ⟨o, s, r⟩
  cases r with
  | returned v =>
    simp only [Effect.andThen, List.mem_append, not_or]
    exact ⟨ha, hk s⟩
  | thrown e => exact ha

/-- A symbol that is in none of the three keyword texts and that no sub-tree writes is not in
what a table expression writes after its source. -/
theorem not_mem_remainderAfterSource {α : Type} [IAST α] (x : Sym) (final : Bool)
    (sample_size sample_offset : Option α) (finalText sampleText offsetText : Ostr)
    (settings : FormatSettings) (frame : FormatStateStacked) (st : FormatState)
    (hf : x ∉ finalText) (hs : x ∉ sampleText) (ho : x ∉ offsetText)
    (hc : ∀ (c : α) (s : FormatState), x ∉ (IAST.formatImpl c settings s frame).ostr) :
    x ∉ (remainderAfterSource final sample_size sample_offset finalText sampleText offsetText
          settings frame st).ostr := by
  cases sample_size with
  | none => cases final <;> simp [remainderAfterSource, hf]
  | some size =>
    simp only [remainderAfterSource]
    refine not_mem_andThen_ostr _ _ _ ?_ fun s1 => ?_
    · cases final <;> simp [hf, hs]
    · refine not_mem_andThen_ostr _ _ _ (hc size s1) fun s2 => ?_
      cases sample_offset with
      | none => simp
      | some offset =>
        simp only
        exact not_mem_andThen_ostr _ _ _ ho fun s3 => hc offset s3

/-! ## C1 – C3: `ASTTablesInSelectQueryElement::formatImpl` -/

/-- C1, as stated, fails, in two ways. An element whose join has a kind outside the seven named
ones (locality Global, strictness Any): the before-table phase writes `GLOBAL ANY ` and throws, so
the element appends only that text. And an element whose join is a plain `INNER JOIN` and whose
table expression has a subquery that throws while it is rendered: the element appends
`INNER JOIN`, a space and the text the subquery wrote, and is left by the exception before the
second space and the after-table phase. -/
theorem element_format_join_unsupported_kind :
    (elementOf (some (bareJoin .Global .Any (.Other 0))) (namedTable "t")).formatImpl
        singleLine topFrame ⟨0⟩
      = ⟨str "GLOBAL ANY ", ⟨0⟩, .thrown ⟨"Join kind not supported"⟩⟩
    ∧ ((elementOf (some (bareJoin .Global .Any (.Other 0))) (namedTable "t")).formatImpl
        singleLine topFrame ⟨0⟩).ostr
      ≠ ((bareJoin .Global .Any (.Other 0)).formatImplBeforeTable singleLine topFrame ⟨0⟩).ostr
          ++ str " " ++ ((namedTable "t").formatImpl singleLine topFrame ⟨0⟩).ostr ++ str " "
          ++ ((bareJoin .Global .Any (.Other 0)).formatImplAfterTable singleLine topFrame
                ((namedTable "t").formatImpl singleLine topFrame ⟨0⟩).state).ostr
    ∧ elementOverFailingSubquery.formatImpl singleLine topFrame ⟨0⟩
      = ⟨str "INNER JOIN GLOBAL ANY ", ⟨0⟩, .thrown ⟨"Join kind not supported"⟩⟩
    ∧ (elementOverFailingSubquery.formatImpl singleLine topFrame ⟨0⟩).ostr
      ≠ (innerJoinNested.formatImplBeforeTable singleLine topFrame ⟨0⟩).ostr ++ str " "
          ++ (tableOverFailingSubquery.formatImpl singleLine topFrame ⟨0⟩).ostr ++ str " "
          ++ (innerJoinNested.formatImplAfterTable singleLine topFrame
                (tableOverFailingSubquery.formatImpl singleLine topFrame ⟨0⟩).state).ostr := by
  decide

/-- C1, amended: for an element with `table_join` and `table_expression` both populated, a join
kind among the seven named ones and a table expression whose format returns, the text appended is
the before-table text, one space, the rendering of the table expression, one space, then what the
after-table phase wrote, and the element is left the way the after-table phase is; with neither
USING nor ON populated the element returns and the text ends with that space. -/
theorem element_format_with_join {α : Type} [IAST α] (e : ASTTablesInSelectQueryElement α)
    (j : ASTTableJoin α) (t : ASTTableExpression α) (settings : FormatSettings)
    (frame : FormatStateStacked) (st : FormatState)
    (hj : e.table_join = some j) (ht : e.table_expression = some t)
    (hk : ∀ raw, j.kind ≠ Kind.Other raw)
    (htr : (t.formatImpl settings frame st).result = .returned ()) :
    e.formatImpl settings frame st =
        ⟨(j.formatImplBeforeTable settings frame st).ostr ++ str " "
            ++ (t.formatImpl settings frame st).ostr ++ str " "
            ++ (j.formatImplAfterTable settings frame (t.formatImpl settings frame st).state).ostr,
          (j.formatImplAfterTable settings frame (t.formatImpl settings frame st).state).state,
          (j.formatImplAfterTable settings frame (t.formatImpl settings frame st).state).result⟩
    ∧ (j.using_expression_list = none → j.on_expression = none →
        e.formatImpl settings frame st =
          ⟨(j.formatImplBeforeTable settings frame st).ostr ++ str " "
              ++ (t.formatImpl settings frame st).ostr ++ str " ",
            (t.formatImpl settings frame st).state, .returned ()⟩) := by
  obtain ⟨hbr, hbs⟩ := ASTTableJoin.formatImplBeforeTable_returned j settings frame st hk
  have main := ASTTablesInSelectQueryElement.formatImpl_join e j t settings frame st hj ht hbr
    (by rw [hbs]; exact htr)
  rw [hbs] at main
  refine ⟨main, fun hu ho => ?_⟩
  rw [main]
  have ha := ASTTableJoin.formatImplAfterTable_eq j settings frame
    (t.formatImpl settings frame st).state
  rw [hu, ho] at ha
  simp [ha]

/-- C1, amended, at `ANY LEFT JOIN b ON a.id = b.id`: a join of kind Left with strictness Any and an
ON predicate around the table `b`. -/
theorem element_format_with_join_witness :
    (∀ raw, (onJoin .Unspecified .Any .Left "a.id = b.id").kind ≠ Kind.Other raw)
    ∧ ((namedTable "b").formatImpl singleLine topFrame ⟨0⟩).result = .returned ()
    ∧ (elementOf (some (onJoin .Unspecified .Any .Left "a.id = b.id")) (namedTable "b")).formatImpl
        singleLine topFrame ⟨0⟩
      = ⟨str "ANY LEFT JOIN b ON a.id = b.id", ⟨2⟩, .returned ()⟩ :=
  ⟨fun raw h => (nomatch h), by decide,
   (element_format_with_join
      (elementOf (some (onJoin .Unspecified .Any .Left "a.id = b.id")) (namedTable "b"))
      (onJoin .Unspecified .Any .Left "a.id = b.id") (namedTable "b") singleLine topFrame ⟨0⟩
      rfl rfl (fun raw h => (nomatch h)) (by decide)).1.trans (by decide)⟩

/-- C2, as stated, fails: the element without a join around the table `t1` appends `t1` and then a
space, which is not the rendering `t1` of its table expression alone. -/
theorem element_format_without_join_trailing_space :
    (elementOf none (namedTable "t1")).formatImpl singleLine topFrame ⟨0⟩
      = ⟨str "t1 ", ⟨1⟩, .returned ()⟩
    ∧ ((namedTable "t1").formatImpl singleLine topFrame ⟨0⟩).ostr = str "t1"
    ∧ ((elementOf none (namedTable "t1")).formatImpl singleLine topFrame ⟨0⟩).ostr
      ≠ ((namedTable "t1").formatImpl singleLine topFrame ⟨0⟩).ostr := by
  decide

/-- C2, amended: for an element with `table_expression` populated and `table_join` absent, the
text appended is the rendering of the table expression followed, when that rendering returns, by
exactly one space, and the element returns; when the rendering is left by an exception, so is the
element, with the text the rendering wrote and no space. No join keyword is written and nothing
precedes the rendering. -/
theorem element_format_without_join {α : Type} [IAST α] (e : ASTTablesInSelectQueryElement α)
    (t : ASTTableExpression α) (settings : FormatSettings) (frame : FormatStateStacked)
    (st : FormatState) (hj : e.table_join = none) (ht : e.table_expression = some t) :
    ((t.formatImpl settings frame st).result = .returned () →
      e.formatImpl settings frame st =
        ⟨(t.formatImpl settings frame st).ostr ++ [Sym.ch ' '],
          (t.formatImpl settings frame st).state, .returned ()⟩)
    ∧ (∀ x, (t.formatImpl settings frame st).result = .thrown x →
      e.formatImpl settings frame st =
        ⟨(t.formatImpl settings frame st).ostr, (t.formatImpl settings frame st).state,
          .thrown x⟩) := by
  rw [ASTTablesInSelectQueryElement.formatImpl_no_join e t settings frame st hj ht]
  constructor
  · intro h
    rw [Effect.andThen_of_returned _ _ h]
    rfl
  · intro x h
    rw [Effect.andThen_of_thrown _ _ x h]
    rcases hT : t.formatImpl settings frame st with ⟨o, s, r⟩
    rw [hT] at h
    simp only at h
    subst h
    rfl

/-- C2, amended, at the element without a join around the table `t1`: the text is `t1` and a
space; and at the element without a join around a table expression whose subquery throws: the
text is what the subquery wrote, without a space. -/
theorem element_format_without_join_witness :
    (elementOf none (namedTable "t1")).table_join = none
    ∧ (elementOf none (namedTable "t1")).table_expression = some (namedTable "t1")
    ∧ ((namedTable "t1").formatImpl multiLine topFrame ⟨0⟩).result = .returned ()
    ∧ (elementOf none (namedTable "t1")).formatImpl multiLine topFrame ⟨0⟩
      = ⟨str "t1 ", ⟨1⟩, .returned ()⟩
    ∧ bareElementOverFailingSubquery.formatImpl singleLine topFrame ⟨0⟩
      = ⟨str "GLOBAL ANY ", ⟨0⟩, .thrown ⟨"Join kind not supported"⟩⟩ :=
  ⟨rfl, rfl, by decide,
   ((element_format_without_join (elementOf none (namedTable "t1")) (namedTable "t1") multiLine
      topFrame ⟨0⟩ rfl rfl).1 (by decide)).trans (by decide),
   ((element_format_without_join bareElementOverFailingSubquery tableOverFailingSubquery
      singleLine topFrame ⟨0⟩ rfl rfl).2 ⟨"Join kind not supported"⟩ (by decide)).trans
      (by decide)⟩

/-- C3, as stated, fails: scenario D in multi-line mode without highlighting at depth 0 yields
`t1`, a space, the newline, then `INNER JOIN t2 USING (x)`, not the text without that space. -/
theorem scenarioD_has_space_before_newline :
    scenarioD.formatImpl multiLine topFrame ⟨0⟩
      = ⟨str "t1 \nINNER JOIN t2 USING (x)", ⟨3⟩, .returned ()⟩
    ∧ (scenarioD.formatImpl multiLine topFrame ⟨0⟩).ostr ≠ str "t1\nINNER JOIN t2 USING (x)" := by
  decide

/-- C3, amended: a two-element sequence, first without join and a table expression rendering as
`t1`, second with a join Inner/Unspecified/Unspecified whose USING list renders as `x` and a table
expression rendering as `t2`, formatted in multi-line mode without highlighting, separator `"\n"`,
depth 0, returns and yields `"t1 \nINNER JOIN t2 USING (x)"`: a space follows `t1`. -/
theorem scenarioD_text {α : Type} [IAST α] (x1 x2 : ASTTableExpression α) (u : α)
    (on_expression : Option α) (c1 c2 : List (ElementChild α)) (cj : List α)
    (need_parens : Bool) (st : FormatState)
    (h1 : ∀ s, (x1.formatImpl ⟨false, false, "\n"⟩ ⟨0, need_parens⟩ s).ostr = str "t1"
      ∧ (x1.formatImpl ⟨false, false, "\n"⟩ ⟨0, need_parens⟩ s).result = .returned ())
    (h2 : ∀ s, (x2.formatImpl ⟨false, false, "\n"⟩ ⟨0, need_parens⟩ s).ostr = str "t2"
      ∧ (x2.formatImpl ⟨false, false, "\n"⟩ ⟨0, need_parens⟩ s).result = .returned ())
    (hu : ∀ s, (IAST.formatImpl u ⟨false, false, "\n"⟩ s ⟨0, false⟩).ostr = str "x"
      ∧ (IAST.formatImpl u ⟨false, false, "\n"⟩ s ⟨0, false⟩).result = .returned ()) :
    ((ASTTablesInSelectQuery.mk
        [⟨none, some x1, c1⟩,
         ⟨some ⟨.Unspecified, .Unspecified, .Inner, some u, on_expression, cj⟩, some x2, c2⟩]
      ).formatImpl ⟨false, false, "\n"⟩ ⟨0, need_parens⟩ st).ostr
        = str "t1 \nINNER JOIN t2 USING (x)"
    ∧ ((ASTTablesInSelectQuery.mk
        [⟨none, some x1, c1⟩,
         ⟨some ⟨.Unspecified, .Unspecified, .Inner, some u, on_expression, cj⟩, some x2, c2⟩]
      ).formatImpl ⟨false, false, "\n"⟩ ⟨0, need_parens⟩ st).result = .returned () := by
  have hb := fun s => ASTTableJoin.formatImplBeforeTable_returned
    (⟨.Unspecified, .Unspecified, .Inner, some u, on_expression, cj⟩ : ASTTableJoin α)
    ⟨false, false, "\n"⟩ ⟨0, need_parens⟩ s (fun raw h => (nomatch h))
  have ha : ∀ s,
      (⟨.Unspecified, .Unspecified, .Inner, some u, on_expression, cj⟩ :
        ASTTableJoin α).formatImplAfterTable ⟨false, false, "\n"⟩ ⟨0, need_parens⟩ s
        = ⟨str "USING (x)", (IAST.formatImpl u ⟨false, false, "\n"⟩ s ⟨0, false⟩).state,
            .returned ()⟩ := by
    intro s
    have h := hu s
    rw [ASTTableJoin.formatImplAfterTable_eq]
    simp only
    rcases hU : IAST.formatImpl u ⟨false, false, "\n"⟩ s ⟨0, false⟩ with ⟨o, s1, r⟩
    rw [hU] at h
    obtain ⟨ho, hr⟩ := h
    simp only at ho hr
    subst ho hr
    rfl
  have e1 : ∀ s, (⟨none, some x1, c1⟩ : ASTTablesInSelectQueryElement α).formatImpl
      ⟨false, false, "\n"⟩ ⟨0, need_parens⟩ s
      = ⟨str "t1" ++ str " ", (x1.formatImpl ⟨false, false, "\n"⟩ ⟨0, need_parens⟩ s).state,
          .returned ()⟩ := by
    intro s
    rw [ASTTablesInSelectQueryElement.formatImpl_no_join _ x1 _ _ _ rfl rfl,
      Effect.andThen_of_returned _ _ (h1 s).2, (h1 s).1]
  have e2 : ∀ s,
      (⟨some ⟨.Unspecified, .Unspecified, .Inner, some u, on_expression, cj⟩, some x2, c2⟩ :
        ASTTablesInSelectQueryElement α).formatImpl ⟨false, false, "\n"⟩ ⟨0, need_parens⟩ s
      = ⟨str "INNER JOIN" ++ str " " ++ str "t2" ++ str " " ++ str "USING (x)",
          (IAST.formatImpl u ⟨false, false, "\n"⟩
            (x2.formatImpl ⟨false, false, "\n"⟩ ⟨0, need_parens⟩ s).state ⟨0, false⟩).state,
          .returned ()⟩ := by
    intro s
    rw [ASTTablesInSelectQueryElement.formatImpl_join _ _ x2 _ _ _ rfl rfl (hb s).1
      (by rw [(hb s).2]; exact (h2 s).2)]
    simp only [(hb s).2, (h2 s).1, ha]
    rw [ASTTableJoin.formatImplBeforeTable_eq]
    rfl
  have hloop := ASTTablesInSelectQuery.formatLoop_eq ⟨false, false, "\n"⟩ ⟨0, need_parens⟩
    [(⟨none, some x1, c1⟩ : ASTTablesInSelectQueryElement α),
     ⟨some ⟨.Unspecified, .Unspecified, .Inner, some u, on_expression, cj⟩, some x2, c2⟩]
    (by
      intro e he s
      simp only [List.mem_cons, List.mem_singleton, List.not_mem_nil, or_false] at he
      rcases he with rfl | rfl
      · rw [e1 s]
      · rw [e2 s]) true st
  unfold ASTTablesInSelectQuery.formatImpl
  rw [hloop]
  refine ⟨?_, rfl⟩
  simp only [elementTexts, e1, e2]
  rfl

/-- C3, amended, at scenario D built from leaves rendering as `t1`, `t2` and `x`. -/
theorem scenarioD_text_witness :
    (∀ s, ((namedTable "t1").formatImpl ⟨false, false, "\n"⟩ ⟨0, false⟩ s).ostr = str "t1"
      ∧ ((namedTable "t1").formatImpl ⟨false, false, "\n"⟩ ⟨0, false⟩ s).result = .returned ())
    ∧ (∀ s, ((namedTable "t2").formatImpl ⟨false, false, "\n"⟩ ⟨0, false⟩ s).ostr = str "t2"
      ∧ ((namedTable "t2").formatImpl ⟨false, false, "\n"⟩ ⟨0, false⟩ s).result = .returned ())
    ∧ (∀ s, (IAST.formatImpl (Leaf.mk "x") ⟨false, false, "\n"⟩ s ⟨0, false⟩).ostr = str "x"
      ∧ (IAST.formatImpl (Leaf.mk "x") ⟨false, false, "\n"⟩ s ⟨0, false⟩).result = .returned ())
    ∧ (scenarioD.formatImpl multiLine topFrame ⟨0⟩).ostr = str "t1 \nINNER JOIN t2 USING (x)" :=
  ⟨fun _ => ⟨by rfl, by rfl⟩, fun _ => ⟨by rfl, by rfl⟩, fun _ => ⟨by rfl, by rfl⟩,
   (scenarioD_text (namedTable "t1") (namedTable "t2") (Leaf.mk "x") none _ _ _ false ⟨0⟩
      (fun _ => ⟨by rfl, by rfl⟩) (fun _ => ⟨by rfl, by rfl⟩) (fun _ => ⟨by rfl, by rfl⟩)).1⟩

/-! ## C4 – C6: `ASTTableJoin::formatImplBeforeTable` and `formatImplAfterTable` -/

/-- C4: for a join whose kind is one of the seven named kinds (it has the kind token `tok`), the
before-table phase returns, leaves the state alone and emits `GLOBAL ` exactly for locality Global,
then `ANY ` or `ALL ` for strictness Any or All unless the kind is Cross or Comma, then the kind
token; with highlighting on this text stands between one `hilite_keyword` and one `hilite_none`,
with highlighting off it stands alone. -/
theorem before_table_text {α : Type} (j : ASTTableJoin α) (settings : FormatSettings)
    (frame : FormatStateStacked) (st : FormatState) (tok : String)
    (hk : specKindToken j.kind = some tok) :
    j.formatImplBeforeTable settings frame st =
      ⟨(if settings.hilite then [Sym.hilite_keyword] else [])
          ++ str (specLocalityToken j.locality)
          ++ (if j.kind = .Cross ∨ j.kind = .Comma then []
              else str (specStrictnessToken j.strictness))
          ++ str tok
          ++ (if settings.hilite then [Sym.hilite_none] else []),
        st, .returned ()⟩ := by
  have hb := ASTTableJoin.formatImplBeforeTable_eq j settings frame st
  rw [hk] at hb
  rw [hb]
  simp [hiliteKeywordIf, hiliteNoneIf, str]

/-- C4 at kind Left, strictness Any, locality Unspecified, highlighting off: `ANY LEFT JOIN`. -/
theorem before_table_text_witness :
    specKindToken (bareJoin .Unspecified .Any .Left).kind = some "LEFT JOIN"
    ∧ (bareJoin .Unspecified .Any .Left).formatImplBeforeTable singleLine topFrame ⟨0⟩
      = ⟨str "ANY LEFT JOIN", ⟨0⟩, .returned ()⟩ :=
  ⟨rfl,
   (before_table_text (bareJoin .Unspecified .Any .Left) singleLine topFrame ⟨0⟩ "LEFT JOIN"
      rfl).trans (by decide)⟩

/-- C5: for a join of kind Cross or Comma, whatever the stored strictness, locality and
highlighting, the before-table phase does the same for every strictness and its text contains
neither `ANY` nor `ALL`; for kind Cross, locality Unspecified and highlighting off the text is
`CROSS JOIN`, and with neither USING nor ON populated the after-table phase emits nothing. -/
theorem before_table_cross_comma_suppresses_strictness {α : Type} [IAST α] (j : ASTTableJoin α)
    (settings : FormatSettings) (frame : FormatStateStacked) (st : FormatState)
    (hk : j.kind = .Cross ∨ j.kind = .Comma) :
    (∀ s : Strictness,
        ({ j with strictness := s }).formatImplBeforeTable settings frame st
          = j.formatImplBeforeTable settings frame st)
    ∧ ¬ (str "ANY" <:+: (j.formatImplBeforeTable settings frame st).ostr)
    ∧ ¬ (str "ALL" <:+: (j.formatImplBeforeTable settings frame st).ostr)
    ∧ (j.kind = .Cross → j.locality = .Unspecified → settings.hilite = false →
        (j.formatImplBeforeTable settings frame st).ostr = str "CROSS JOIN")
    ∧ (j.using_expression_list = none → j.on_expression = none →
        (j.formatImplAfterTable settings frame st).ostr = str "") := by
  rcases j with ⟨loc, s, k, u, o, ch⟩
  rcases settings with ⟨hl, ol, nl⟩
  simp only at hk
  refine ⟨?_, ?_, ?_, ?_, ?_⟩
  · intro s2
    simp only [ASTTableJoin.formatImplBeforeTable_eq]
    rcases hk with rfl | rfl <;> rfl
  · rw [ASTTableJoin.formatImplBeforeTable_eq]
    rcases hk with rfl | rfl <;> cases loc <;> cases hl <;>
      simp only [specKindToken, specLocalityToken, hiliteKeywordIf, hiliteNoneIf, true_or,
        or_true, if_true, Bool.false_eq_true, if_false] <;>
      decide
  · rw [ASTTableJoin.formatImplBeforeTable_eq]
    rcases hk with rfl | rfl <;> cases loc <;> cases hl <;>
      simp only [specKindToken, specLocalityToken, hiliteKeywordIf, hiliteNoneIf, true_or,
        or_true, if_true, Bool.false_eq_true, if_false] <;>
      decide
  · intro h1 h2 h3
    simp only at h1 h2 h3
    subst h1 h2 h3
    rw [ASTTableJoin.formatImplBeforeTable_eq]
    rfl
  · intro h1 h2
    simp only at h1 h2
    subst h1 h2
    rw [ASTTableJoin.formatImplAfterTable_eq]
    rfl

/-- C5 at kind Cross, strictness All, locality Unspecified, no USING and no ON, highlighting off:
the before-table text is `CROSS JOIN`, the after-table text is empty. -/
theorem before_table_cross_comma_suppresses_strictness_witness :
    ((bareJoin .Unspecified .All .Cross).kind = .Cross
      ∨ (bareJoin .Unspecified .All .Cross).kind = .Comma)
    ∧ ((bareJoin .Unspecified .All .Cross).formatImplBeforeTable singleLine topFrame ⟨0⟩).ostr
      = str "CROSS JOIN"
    ∧ ((bareJoin .Unspecified .All .Cross).formatImplAfterTable singleLine topFrame ⟨0⟩).ostr
      = str "" :=
  ⟨Or.inl rfl,
   (before_table_cross_comma_suppresses_strictness (bareJoin .Unspecified .All .Cross) singleLine
      topFrame ⟨0⟩ (Or.inl rfl)).2.2.2.1 rfl rfl rfl,
   (before_table_cross_comma_suppresses_strictness (bareJoin .Unspecified .All .Cross) singleLine
      topFrame ⟨0⟩ (Or.inl rfl)).2.2.2.2 rfl rfl⟩

/-- C6, as stated, fails: a join whose USING list is rendered by a nested FROM clause that throws.
With highlighting off the after-table phase writes `USING (` and the text the sub-tree wrote, and
is left by the exception: the closing parenthesis is not written. -/
theorem after_table_using_without_closing_parenthesis :
    joinOverFailingSubquery.formatImplAfterTable singleLine topFrame ⟨0⟩
      = ⟨str "USING (GLOBAL ANY ", ⟨0⟩, .thrown ⟨"Join kind not supported"⟩⟩
    ∧ (IAST.formatImpl failingSubquery singleLine ⟨0⟩ ⟨0, false⟩).ostr = str "GLOBAL ANY "
    ∧ (joinOverFailingSubquery.formatImplAfterTable singleLine topFrame ⟨0⟩).ostr
      ≠ str "USING (" ++ (IAST.formatImpl failingSubquery singleLine ⟨0⟩ ⟨0, false⟩).ostr
          ++ str ")" := by
  decide

/-- C6, amended: with highlighting off the after-table phase emits `USING (`, the rendering of
`using_expression_list` and, when that rendering returns, `)`, when that field is populated,
whatever `on_expression` is, which is then not rendered (the state is the one the USING list
left); when the rendering of the list is left by an exception, so is the phase, without the
closing parenthesis. Otherwise it emits `ON ` and the rendering of `on_expression` when that is
populated, and is left the way that rendering is; otherwise it emits nothing and returns. The
sub-tree is rendered in the caller's frame with `need_parens` cleared. -/
theorem after_table_text {α : Type} [IAST α] (j : ASTTableJoin α) (settings : FormatSettings)
    (frame : FormatStateStacked) (st : FormatState) (hh : settings.hilite = false) :
    match j.using_expression_list, j.on_expression with
    | some u, _ =>
      ((IAST.formatImpl u settings st ⟨frame.indent, false⟩).result = .returned () →
        j.formatImplAfterTable settings frame st =
          ⟨str "USING (" ++ (IAST.formatImpl u settings st ⟨frame.indent, false⟩).ostr ++ str ")",
            (IAST.formatImpl u settings st ⟨frame.indent, false⟩).state, .returned ()⟩)
      ∧ (∀ x, (IAST.formatImpl u settings st ⟨frame.indent, false⟩).result = .thrown x →
        j.formatImplAfterTable settings frame st =
          ⟨str "USING (" ++ (IAST.formatImpl u settings st ⟨frame.indent, false⟩).ostr,
            (IAST.formatImpl u settings st ⟨frame.indent, false⟩).state, .thrown x⟩)
    | none, some o =>
      j.formatImplAfterTable settings frame st =
        ⟨str "ON " ++ (IAST.formatImpl o settings st ⟨frame.indent, false⟩).ostr,
          (IAST.formatImpl o settings st ⟨frame.indent, false⟩).state,
          (IAST.formatImpl o settings st ⟨frame.indent, false⟩).result⟩
    | none, none => j.formatImplAfterTable settings frame st = ⟨[], st, .returned ()⟩ := by
  rw [ASTTableJoin.formatImplAfterTable_eq]
  rcases j with ⟨loc, s, k, u, o, ch⟩
  cases u with
  | some u =>
    simp only
    rcases hU : IAST.formatImpl u settings st ⟨frame.indent, false⟩ with ⟨o1, s1, r1⟩
    constructor
    · intro h
      simp only at h
      subst h
      simp [Effect.andThen, hiliteKeywordIf, hiliteNoneIf, hh, str]
    · intro x h
      simp only at h
      subst h
      simp [Effect.andThen, hiliteKeywordIf, hiliteNoneIf, hh, str]
  | none =>
    cases o with
    | some o => simp [hiliteKeywordIf, hiliteNoneIf, hh, str]
    | none => rfl

/-- C6, amended, at an ON predicate rendering as `a.id = b.id` with no USING list:
`ON a.id = b.id`; at a join with both a USING list `x` and an ON predicate: `USING (x)`, one
sub-tree rendered; and at a USING list rendered by a nested FROM clause that returns:
`USING (u )`. -/
theorem after_table_text_witness :
    singleLine.hilite = false
    ∧ (onJoin .Unspecified .Any .Left "a.id = b.id").formatImplAfterTable singleLine topFrame ⟨0⟩
      = ⟨str "ON a.id = b.id", ⟨1⟩, .returned ()⟩
    ∧ (ASTTableJoin.mk .Unspecified .Any .Left (some (Leaf.mk "x")) (some (Leaf.mk "a.id = b.id"))
        []).formatImplAfterTable singleLine topFrame ⟨0⟩
      = ⟨str "USING (x)", ⟨1⟩, .returned ()⟩
    ∧ (IAST.formatImpl plainSubquery singleLine ⟨0⟩ ⟨0, false⟩).result = .returned ()
    ∧ joinOverPlainSubquery.formatImplAfterTable singleLine topFrame ⟨0⟩
      = ⟨str "USING (u )", ⟨1⟩, .returned ()⟩ :=
  ⟨rfl,
   (after_table_text (onJoin .Unspecified .Any .Left "a.id = b.id") singleLine topFrame ⟨0⟩
      rfl).trans (by decide),
   ((after_table_text
      (ASTTableJoin.mk .Unspecified .Any .Left (some (Leaf.mk "x")) (some (Leaf.mk "a.id = b.id"))
        []) singleLine topFrame ⟨0⟩ rfl).1 (by decide)).trans (by decide),
   by decide,
   ((after_table_text joinOverPlainSubquery singleLine topFrame ⟨0⟩ rfl).1 (by decide)).trans
      (by decide)⟩

/-! ## C7 – C9: `ASTTableExpression::formatImpl` -/

/-- C7, as stated, fails: a table expression with `final` set whose subquery throws while it is
rendered. With highlighting off the format appends the text the subquery wrote and is left by the
exception: `FINAL` is not written after the source rendering. -/
theorem table_expression_source_failure_stops_format :
    tableOverFailingSubquery.formatImpl singleLine topFrame ⟨0⟩
      = ⟨str "GLOBAL ANY ", ⟨0⟩, .thrown ⟨"Join kind not supported"⟩⟩
    ∧ (renderOpt tableOverFailingSubquery.subquery singleLine topFrame ⟨0⟩).ostr
      = str "GLOBAL ANY "
    ∧ (tableOverFailingSubquery.formatImpl singleLine topFrame ⟨0⟩).ostr
      ≠ (renderOpt tableOverFailingSubquery.subquery singleLine topFrame ⟨0⟩).ostr
          ++ (str singleLine.nl_or_ws ++ str "FINAL") := by
  decide

/-- C7, amended: with highlighting off, when the renderings of the sub-trees the format reaches
return (the source, `sample_size`, and `sample_offset` if `sample_size` is populated), the format
of a table expression returns and emits the rendering of the populated source variant (the first
populated of table reference, table function, subquery, if any); then, if `final` is set,
`nl_or_ws`, the indentation and `FINAL`; then, if `sample_size` is populated, `nl_or_ws`, the
indentation, `SAMPLE ` and the rendering of `sample_size`, followed, if `sample_offset` is
populated too, by ` OFFSET ` and its rendering. The indentation is empty when `one_line` is set
and `4 * frame.indent` spaces otherwise. -/
theorem table_expression_text {α : Type} [IAST α] (t : ASTTableExpression α)
    (settings : FormatSettings) (frame : FormatStateStacked) (st : FormatState)
    (hh : settings.hilite = false) :
    let indent : Ostr :=
      if settings.one_line then [] else List.replicate (4 * frame.indent) (Sym.ch ' ')
    let source :=
      renderOpt (t.database_and_table_name <|> t.table_function <|> t.subquery) settings frame st
    let size := renderOpt t.sample_size settings frame source.state
    let offset := renderOpt t.sample_offset settings frame size.state
    source.result = .returned () → size.result = .returned () →
    (t.sample_size.isSome → offset.result = .returned ()) →
    t.formatImpl settings frame st =
      ⟨source.ostr
          ++ (if t.final then str settings.nl_or_ws ++ indent ++ str "FINAL" else [])
          ++ (if t.sample_size.isSome then
                str settings.nl_or_ws ++ indent ++ str "SAMPLE " ++ size.ostr
                  ++ (if t.sample_offset.isSome then str " OFFSET " ++ offset.ostr else [])
              else []),
        if t.sample_size.isSome then offset.state else source.state, .returned ()⟩ := by
  intro indent source size offset h1 h2 h3
  rw [ASTTableExpression.formatImpl_of_returned t settings frame st h1 h2 h3]
  simp only [hiliteKeywordIf, hiliteNoneIf, hh, indent_str, indent, source, size, offset]
  simp [str]

/-- C7, amended, at a named table rendering as `t` with `final` set, no sample, single-line,
separator `" "`, highlighting off: `t FINAL`. -/
theorem table_expression_text_witness :
    singleLine.hilite = false
    ∧ (renderOpt (finalTable "t").database_and_table_name singleLine topFrame ⟨0⟩).result
      = .returned ()
    ∧ (finalTable "t").formatImpl singleLine topFrame ⟨0⟩ = ⟨str "t FINAL", ⟨1⟩, .returned ()⟩ :=
  ⟨rfl, by decide,
   (table_expression_text (finalTable "t") singleLine topFrame ⟨0⟩ rfl (by decide) (by decide)
      (fun h => nomatch h)).trans (by decide)⟩

/-- C8, as stated, fails: formatting the table `t` with `final` set, highlighting on, single-line,
separator `" "` yields `t`, `hilite_keyword`, ` FINAL`, `hilite_none`: the marker pair encloses the
separator together with the keyword, which is none of `FINAL`, `SAMPLE`, `OFFSET`. -/
theorem table_expression_marker_encloses_separator :
    ((finalTable "t").formatImpl singleLineHilite topFrame ⟨0⟩).ostr
      = str "t" ++ [Sym.hilite_keyword] ++ str " FINAL" ++ [Sym.hilite_none]
    ∧ ¬ (∀ span ∈ markedSpans ((finalTable "t").formatImpl singleLineHilite topFrame ⟨0⟩).ostr,
          span ∈ [str "FINAL", str "SAMPLE", str "OFFSET"]) := by
  decide

/-- C8, amended: with highlighting on, the table expression's own format emits three marker
pairs at most: one encloses `nl_or_ws`, the indentation and `FINAL`; one encloses `nl_or_ws`, the
indentation and `SAMPLE ` with its trailing space; one encloses ` OFFSET ` with its leading and
trailing space; no pair encloses sub-expression text. The format is the source rendering
followed by these texts and the sample renderings, each written if the rendering before it
returned. With highlighting off, if the sub-trees write no marker, the output holds no marker. -/
theorem table_expression_markers {α : Type} [IAST α] (t : ASTTableExpression α)
    (settings : FormatSettings) (frame : FormatStateStacked) (st : FormatState) :
    let indent : Ostr :=
      if settings.one_line then [] else List.replicate (4 * frame.indent) (Sym.ch ' ')
    (settings.hilite = true →
      t.formatImpl settings frame st =
        (renderOpt (t.database_and_table_name <|> t.table_function <|> t.subquery)
            settings frame st).andThen
          (remainderAfterSource t.final t.sample_size t.sample_offset
            ([Sym.hilite_keyword] ++ (str settings.nl_or_ws ++ indent ++ str "FINAL")
              ++ [Sym.hilite_none])
            ([Sym.hilite_keyword] ++ (str settings.nl_or_ws ++ indent ++ str "SAMPLE ")
              ++ [Sym.hilite_none])
            ([Sym.hilite_keyword] ++ str " OFFSET " ++ [Sym.hilite_none])
            settings frame))
    ∧ (settings.hilite = false →
        (∀ (c : α) (s : FormatState) (fr : FormatStateStacked),
          Sym.hilite_keyword ∉ (IAST.formatImpl c settings s fr).ostr
          ∧ Sym.hilite_none ∉ (IAST.formatImpl c settings s fr).ostr) →
        Sym.hilite_keyword ∉ (t.formatImpl settings frame st).ostr
        ∧ Sym.hilite_none ∉ (t.formatImpl settings frame st).ostr) := by
  intro indent
  refine ⟨fun hh => ?_, fun hh hc => ?_⟩
  · rw [ASTTableExpression.formatImpl_eq]
    simp only [hiliteKeywordIf, hiliteNoneIf, hh, indent_str, indent]
    simp [str]
  · have hr : ∀ (c : Option α) (s : FormatState),
        Sym.hilite_keyword ∉ (renderOpt c settings frame s).ostr
        ∧ Sym.hilite_none ∉ (renderOpt c settings frame s).ostr := by
      intro c s
      cases c with
      | none => simp [renderOpt]
      | some c => exact hc c s frame
    rw [ASTTableExpression.formatImpl_eq]
    simp only [hiliteKeywordIf, hiliteNoneIf, hh, indent_str, Bool.false_eq_true, if_false]
    constructor
    · refine not_mem_andThen_ostr _ _ _ (hr _ _).1 fun s => ?_
      refine not_mem_remainderAfterSource _ _ _ _ _ _ _ _ _ _ ?_ ?_ ?_ (fun c s => (hc c s _).1)
      all_goals first | (split_ifs <;> simp [str]) | simp [str]
    · refine not_mem_andThen_ostr _ _ _ (hr _ _).2 fun s => ?_
      refine not_mem_remainderAfterSource _ _ _ _ _ _ _ _ _ _ ?_ ?_ ?_ (fun c s => (hc c s _).2)
      all_goals first | (split_ifs <;> simp [str]) | simp [str]

/-- C8, amended, at the table `t` with `FINAL` and `SAMPLE 1/10 OFFSET 5`, single-line with
highlighting: each pair encloses the keyword with its separator or spaces; and at the table `t`
with `FINAL` without highlighting: no marker. -/
theorem table_expression_markers_witness :
    singleLineHilite.hilite = true
    ∧ (sampledTable "t" "1/10" "5").formatImpl singleLineHilite topFrame ⟨0⟩
      = ⟨str "t" ++ [Sym.hilite_keyword] ++ str " FINAL" ++ [Sym.hilite_none]
          ++ [Sym.hilite_keyword] ++ str " SAMPLE " ++ [Sym.hilite_none] ++ str "1/10"
          ++ [Sym.hilite_keyword] ++ str " OFFSET " ++ [Sym.hilite_none] ++ str "5",
          ⟨3⟩, .returned ()⟩
    ∧ singleLine.hilite = false
    ∧ Sym.hilite_keyword ∉ ((finalTable "t").formatImpl singleLine topFrame ⟨0⟩).ostr
    ∧ Sym.hilite_none ∉ ((finalTable "t").formatImpl singleLine topFrame ⟨0⟩).ostr :=
  ⟨rfl,
   ((table_expression_markers (sampledTable "t" "1/10" "5") singleLineHilite topFrame ⟨0⟩).1
      rfl).trans (by decide),
   rfl,
   (table_expression_markers (finalTable "t") singleLine topFrame ⟨0⟩).2 rfl
      (fun c _ _ => ⟨hilite_keyword_not_mem_str c.text, hilite_none_not_mem_str c.text⟩)⟩

/-- C9: the format of a table expression renders the first populated of table reference, table
function, subquery, once and first, and no other source variant, also when several are populated;
what follows if that rendering returned (the `FINAL` and `SAMPLE` parts, run from the state that
rendering left) does not depend on the three source fields, and a rendering that throws ends the
format. With all three absent no source text is emitted: the format is that remainder alone, run
from the incoming state. -/
theorem table_expression_renders_first_source {α : Type} [IAST α] (t : ASTTableExpression α)
    (settings : FormatSettings) (frame : FormatStateStacked) (st : FormatState) :
    let remainder : FormatState → Effect Unit :=
      remainderAfterSource t.final t.sample_size t.sample_offset
        (hiliteKeywordIf settings ++ str settings.nl_or_ws ++ indent_str settings frame
          ++ str "FINAL" ++ hiliteNoneIf settings)
        (hiliteKeywordIf settings ++ str settings.nl_or_ws ++ indent_str settings frame
          ++ str "SAMPLE " ++ hiliteNoneIf settings)
        (hiliteKeywordIf settings ++ str " OFFSET " ++ hiliteNoneIf settings)
        settings frame
    let renders : α → Prop := fun c =>
      t.formatImpl settings frame st = (IAST.formatImpl c settings st frame).andThen remainder
    (∀ c, t.database_and_table_name = some c → renders c)
    ∧ (∀ c, t.database_and_table_name = none → t.table_function = some c → renders c)
    ∧ (∀ c, t.database_and_table_name = none → t.table_function = none →
        t.subquery = some c → renders c)
    ∧ (t.database_and_table_name = none → t.table_function = none → t.subquery = none →
        t.formatImpl settings frame st = remainder st) := by
  intro remainder renders
  rcases t with ⟨dbt, tf, sq, final, ss, so, ch⟩
  refine ⟨?_, ?_, ?_, ?_⟩
  · intro c h
    simp only at h
    subst h
    simp only [renders, remainder, ASTTableExpression.formatImpl_eq]
    rfl
  · intro c h1 h2
    simp only at h1 h2
    subst h1 h2
    simp only [renders, remainder, ASTTableExpression.formatImpl_eq]
    rfl
  · intro c h1 h2 h3
    simp only at h1 h2 h3
    subst h1 h2 h3
    simp only [renders, remainder, ASTTableExpression.formatImpl_eq]
    rfl
  · intro h1 h2 h3
    simp only at h1 h2 h3
    subst h1 h2 h3
    simp only [remainder, ASTTableExpression.formatImpl_eq]
    simp [renderOpt, Effect.andThen]

/-- C9 at a table expression with all three source variants populated (`t`, `f()`,
`(SELECT 1)`): only `t` is written and one sub-tree was rendered (the leaves count the rendering
calls in the state); and at a table expression with no source and nothing else: no text, no
rendering. -/
theorem table_expression_renders_first_source_witness :
    threeSources.database_and_table_name = some (Leaf.mk "t")
    ∧ threeSources.formatImpl singleLine topFrame ⟨0⟩ = ⟨str "t", ⟨1⟩, .returned ()⟩
    ∧ (ASTTableExpression.mk (none : Option Leaf) none none false none none []).formatImpl
        singleLine topFrame ⟨0⟩ = ⟨[], ⟨0⟩, .returned ()⟩ :=
  ⟨rfl,
   ((table_expression_renders_first_source threeSources singleLine topFrame ⟨0⟩).1
      (Leaf.mk "t") rfl).trans (by decide),
   ((table_expression_renders_first_source
      (ASTTableExpression.mk (none : Option Leaf) none none false none none [])
      singleLine topFrame ⟨0⟩).2.2.2 rfl rfl rfl).trans (by decide)⟩

/-! ## C10: `ASTTablesInSelectQuery::formatImpl` -/

/-- C10, as stated, fails: in a sequence of three elements whose second has a join kind outside the
seven named ones, the format writes the first element and the separator, then the second element
throws before writing anything; the third element and its separator are not written, so the
output is not the element texts joined by the separator. -/
theorem query_format_stops_at_failing_element :
    brokenChain.formatImpl multiLine topFrame ⟨0⟩
      = ⟨str "t1 \n", ⟨1⟩, .thrown ⟨"Join kind not supported"⟩⟩
    ∧ List.intercalate (str multiLine.nl_or_ws ++ indent_str multiLine topFrame)
        (elementTexts multiLine topFrame ⟨0⟩ brokenChain.children) = str "t1 \n\nCROSS JOIN t3 "
    ∧ (brokenChain.formatImpl multiLine topFrame ⟨0⟩).ostr
      ≠ List.intercalate (str multiLine.nl_or_ws ++ indent_str multiLine topFrame)
          (elementTexts multiLine topFrame ⟨0⟩ brokenChain.children) := by
  decide

/-- C10, amended: for a sequence all of whose elements' formats return (as they do not, for
instance, when a rendered join has a kind outside the seven named ones), the format returns and
emits the element texts in sequence order, each element formatted from the state its predecessor
left, with the separator `nl_or_ws` followed by the indentation between consecutive elements and nowhere
else; the empty sequence yields the empty text. -/
theorem query_format_text {α : Type} [IAST α] (q : ASTTablesInSelectQuery α)
    (settings : FormatSettings) (frame : FormatStateStacked) (st : FormatState)
    (hret : ∀ e ∈ q.children, ∀ s, (e.formatImpl settings frame s).result = .returned ()) :
    q.formatImpl settings frame st =
      ⟨List.intercalate
          (str settings.nl_or_ws
            ++ (if settings.one_line then [] else List.replicate (4 * frame.indent) (Sym.ch ' ')))
          (elementTexts settings frame st q.children),
        elementsState settings frame st q.children, .returned ()⟩ := by
  unfold ASTTablesInSelectQuery.formatImpl
  rw [ASTTablesInSelectQuery.formatLoop_eq settings frame q.children hret true st]
  simp [indent_str, str]

/-- C10, amended, at scenario D: both elements return, and the text is the two element texts with
one separator between them. -/
theorem query_format_text_witness :
    (∀ e ∈ scenarioD.children, ∀ s, (e.formatImpl multiLine topFrame s).result = .returned ())
    ∧ (scenarioD.formatImpl multiLine topFrame ⟨0⟩).ostr
      = str "t1 " ++ str "\n" ++ str "INNER JOIN t2 USING (x)" :=
  ⟨fun e he s => by
      simp only [scenarioD, List.mem_cons, List.mem_singleton, List.not_mem_nil, or_false] at he
      rcases he with rfl | rfl <;> rfl,
   (congrArg Effect.ostr
      (query_format_text scenarioD multiLine topFrame ⟨0⟩ (fun e he s => by
        simp only [scenarioD, List.mem_cons, List.mem_singleton, List.not_mem_nil, or_false] at he
        rcases he with rfl | rfl <;> rfl))).trans (by decide)⟩

/-! ## Auxiliary facts about `clone` -/

/-- The clone of a table expression, field by field. -/
theorem tableExpression_clone_eq {α : Type} [IAST α] (t : ASTTableExpression α) :
    t.clone =
      { database_and_table_name := t.database_and_table_name.map IAST.clone,
        table_function := t.table_function.map IAST.clone,
        subquery := t.subquery.map IAST.clone,
        final := t.final,
        sample_size := t.sample_size.map IAST.clone,
        sample_offset := t.sample_offset.map IAST.clone,
        children :=
          [t.database_and_table_name.map IAST.clone, t.table_function.map IAST.clone,
            t.subquery.map IAST.clone, t.sample_size.map IAST.clone,
            t.sample_offset.map IAST.clone].reduceOption } := by
  rcases t with ⟨dbt, tf, sq, final, ss, so, ch⟩
  cases dbt <;> cases tf <;> cases sq <;> cases ss <;> cases so <;> rfl

/-- The clone of a join, field by field. -/
theorem tableJoin_clone_eq {α : Type} [IAST α] (j : ASTTableJoin α) :
    j.clone =
      { locality := j.locality, strictness := j.strictness, kind := j.kind,
        using_expression_list := j.using_expression_list.map IAST.clone,
        on_expression := j.on_expression.map IAST.clone,
        children :=
          [j.using_expression_list.map IAST.clone,
            j.on_expression.map IAST.clone].reduceOption } := by
  rcases j with ⟨loc, s, k, u, o, ch⟩
  cases u <;> cases o <;> rfl

/-- The clone of an element, field by field. -/
theorem element_clone_eq {α : Type} [IAST α]
    (e : ASTTablesInSelectQueryElement α) :
    e.clone =
      { table_join := e.table_join.map ASTTableJoin.clone,
        table_expression := e.table_expression.map ASTTableExpression.clone,
        children :=
          [(e.table_join.map ASTTableJoin.clone).map ElementChild.table_join,
            (e.table_expression.map ASTTableExpression.clone).map
              ElementChild.table_expression].reduceOption } := by
  rcases e with ⟨ej, et, ch⟩
  cases ej <;> cases et <;> rfl

/-- With an identity clone of the sub-trees, mapping it over an optional field changes nothing. -/
theorem option_map_clone_of_id {α : Type} [IAST α] (hc : ∀ c : α, IAST.clone c = c)
    (o : Option α) : o.map IAST.clone = o := by
  cases o with
  | none => rfl
  | some c => simp [hc c]

/-- A table expression whose children list its populated fields is its own clone, when the
sub-trees are their own clones. -/
theorem tableExpression_clone_eq_self {α : Type} [IAST α] (hc : ∀ c : α, IAST.clone c = c)
    (t : ASTTableExpression α) (ht : t.children = t.populatedFields) : t.clone = t := by
  rw [tableExpression_clone_eq]
  rcases t with ⟨dbt, tf, sq, final, ss, so, ch⟩
  simp only [ASTTableExpression.populatedFields] at ht
  subst ht
  simp only [option_map_clone_of_id hc]

/-- A join whose children list its populated fields is its own clone, when the sub-trees are their
own clones. -/
theorem tableJoin_clone_eq_self {α : Type} [IAST α] (hc : ∀ c : α, IAST.clone c = c)
    (j : ASTTableJoin α) (hj : j.children = j.populatedFields) : j.clone = j := by
  rw [tableJoin_clone_eq]
  rcases j with ⟨loc, s, k, u, o, ch⟩
  simp only [ASTTableJoin.populatedFields] at hj
  subst hj
  simp only [option_map_clone_of_id hc]

/-- An element in step with its fields is its own clone, when the sub-trees are their own
clones. -/
theorem element_clone_eq_self {α : Type} [IAST α]
    (hc : ∀ c : α, IAST.clone c = c) (e : ASTTablesInSelectQueryElement α) (he : e.inSync) :
    e.clone = e := by
  rw [element_clone_eq]
  rcases e with ⟨ej, et, ch⟩
  obtain ⟨h1, h2, h3⟩ := he
  simp only [ASTTablesInSelectQueryElement.populatedFields] at h1 h2 h3
  subst h1
  have hj : ej.map ASTTableJoin.clone = ej := by
    cases ej with
    | none => rfl
    | some j => simp [tableJoin_clone_eq_self hc j (h2 j rfl)]
  have ht : et.map ASTTableExpression.clone = et := by
    cases et with
    | none => rfl
    | some t => simp [tableExpression_clone_eq_self hc t (h3 t rfl)]
  simp only [hj, ht]

/-- Cloning a table expression twice is cloning it once, when that holds of the sub-trees. -/
theorem tableExpression_clone_clone {α : Type} [IAST α]
    (hc : ∀ c : α, IAST.clone (IAST.clone c) = IAST.clone c) (t : ASTTableExpression α) :
    t.clone.clone = t.clone := by
  rcases t with ⟨dbt, tf, sq, final, ss, so, ch⟩
  cases dbt <;> cases tf <;> cases sq <;> cases ss <;> cases so <;>
    simp [ASTTableExpression.clone, hc]

/-- Cloning a join twice is cloning it once, when that holds of the sub-trees. -/
theorem tableJoin_clone_clone {α : Type} [IAST α]
    (hc : ∀ c : α, IAST.clone (IAST.clone c) = IAST.clone c) (j : ASTTableJoin α) :
    j.clone.clone = j.clone := by
  rcases j with ⟨loc, s, k, u, o, ch⟩
  cases u <;> cases o <;> simp [ASTTableJoin.clone, hc]

/-- Cloning an element twice is cloning it once, when that holds of the sub-trees. -/
theorem element_clone_clone {α : Type} [IAST α]
    (hc : ∀ c : α, IAST.clone (IAST.clone c) = IAST.clone c)
    (e : ASTTablesInSelectQueryElement α) : e.clone.clone = e.clone := by
  rcases e with ⟨ej, et, ch⟩
  cases ej <;> cases et <;>
    simp [ASTTablesInSelectQueryElement.clone, tableJoin_clone_clone hc,
      tableExpression_clone_clone hc]

/-! ## C12 – C15, C19: `clone` -/

/-- C12, as stated, fails: the table `t` with an empty children collection, over leaves that are
their own clones. Its clone holds the clone of the table reference in its children collection, so
the clone is not equal to the source. -/
theorem clone_rebuilds_children_of_stale_node :
    (∀ c : Leaf, IAST.clone c = c)
    ∧ tableWithoutChildren.children = []
    ∧ tableWithoutChildren.clone.children = [Leaf.mk "t"]
    ∧ tableWithoutChildren.clone ≠ tableWithoutChildren :=
  ⟨fun _ => rfl, by decide, by decide, by decide⟩

/-- C12, amended: when every sub-tree of another node type is equal to its clone, the clone of a
table expression, of a join, of an element and of a sequence is equal to the source (scalar
fields, optional fields, children collection), provided the children collection of the node and
of the nodes below it lists exactly the populated optional fields in the fixed order. -/
theorem clone_eq_source_when_in_sync {α : Type} [IAST α] (hc : ∀ c : α, IAST.clone c = c)
    (t : ASTTableExpression α) (j : ASTTableJoin α) (e : ASTTablesInSelectQueryElement α)
    (q : ASTTablesInSelectQuery α) :
    (t.children = t.populatedFields → t.clone = t)
    ∧ (j.children = j.populatedFields → j.clone = j)
    ∧ (e.inSync → e.clone = e)
    ∧ ((∀ x ∈ q.children, x.inSync) → q.clone = q) := by
  refine ⟨tableExpression_clone_eq_self hc t, tableJoin_clone_eq_self hc j,
    element_clone_eq_self hc e, fun hq => ?_⟩
  rcases q with ⟨es⟩
  simp only [ASTTablesInSelectQuery.clone, ASTTablesInSelectQuery.mk.injEq]
  simp only at hq
  calc es.map (fun child => child.clone) = es.map id :=
        List.map_congr_left fun x hx => element_clone_eq_self hc x (hq x hx)
    _ = es := List.map_id es

/-- C12, amended, at scenario D and its parts, whose children collections list their populated
fields: each is equal to its clone. -/
theorem clone_eq_source_when_in_sync_witness :
    (∀ c : Leaf, IAST.clone c = c)
    ∧ (namedTable "t1").children = (namedTable "t1").populatedFields
    ∧ (namedTable "t1").clone = namedTable "t1"
    ∧ (usingJoin .Unspecified .Unspecified .Inner "x").clone
        = usingJoin .Unspecified .Unspecified .Inner "x"
    ∧ (elementOf (some (usingJoin .Unspecified .Unspecified .Inner "x")) (namedTable "t2")).clone
        = elementOf (some (usingJoin .Unspecified .Unspecified .Inner "x")) (namedTable "t2")
    ∧ scenarioD.clone = scenarioD :=
  have hin : ∀ x ∈ scenarioD.children, x.inSync := by
    intro x hx
    simp only [scenarioD, List.mem_cons, List.mem_singleton, List.not_mem_nil, or_false] at hx
    rcases hx with rfl | rfl
    · refine ⟨rfl, ?_, ?_⟩
      · intro j h
        simp [elementOf] at h
      · intro t h
        simp only [elementOf, Option.some.injEq] at h
        subst h
        rfl
    · refine ⟨rfl, ?_, ?_⟩
      · intro j h
        simp only [elementOf, Option.some.injEq] at h
        subst h
        rfl
      · intro t h
        simp only [elementOf, Option.some.injEq] at h
        subst h
        rfl
  ⟨fun _ => rfl, rfl,
   (clone_eq_source_when_in_sync (fun _ => rfl) (namedTable "t1")
      (usingJoin .Unspecified .Unspecified .Inner "x")
      (elementOf (some (usingJoin .Unspecified .Unspecified .Inner "x")) (namedTable "t2"))
      scenarioD).1 rfl,
   (clone_eq_source_when_in_sync (fun _ => rfl) (namedTable "t1")
      (usingJoin .Unspecified .Unspecified .Inner "x")
      (elementOf (some (usingJoin .Unspecified .Unspecified .Inner "x")) (namedTable "t2"))
      scenarioD).2.1 rfl,
   (clone_eq_source_when_in_sync (fun _ => rfl) (namedTable "t1")
      (usingJoin .Unspecified .Unspecified .Inner "x")
      (elementOf (some (usingJoin .Unspecified .Unspecified .Inner "x")) (namedTable "t2"))
      scenarioD).2.2.1 (hin _ (List.mem_cons_of_mem _ (List.mem_cons_self _ _))),
   (clone_eq_source_when_in_sync (fun _ => rfl) (namedTable "t1")
      (usingJoin .Unspecified .Unspecified .Inner "x")
      (elementOf (some (usingJoin .Unspecified .Unspecified .Inner "x")) (namedTable "t2"))
      scenarioD).2.2.2 hin⟩

/-- C13: whatever the children collection of the source held, the children collection of the
clone of a table expression, of a join and of an element is exactly the list of the clone's
populated optional fields in the fixed order, with no entry for an absent field; it consists of
the clones of the source's populated fields. -/
theorem clone_children_are_populated_fields {α : Type} [IAST α] (t : ASTTableExpression α)
    (j : ASTTableJoin α) (e : ASTTablesInSelectQueryElement α) :
    (t.clone.children = t.clone.populatedFields
      ∧ t.clone.children = t.populatedFields.map IAST.clone)
    ∧ (j.clone.children = j.clone.populatedFields
      ∧ j.clone.children = j.populatedFields.map IAST.clone)
    ∧ (e.clone.children = e.clone.populatedFields
      ∧ e.clone.children = e.populatedFields.map ElementChild.clone) := by
  refine ⟨⟨?_, ?_⟩, ⟨?_, ?_⟩, ⟨?_, ?_⟩⟩
  · rw [tableExpression_clone_eq]; rfl
  · rcases t with ⟨dbt, tf, sq, final, ss, so, ch⟩
    cases dbt <;> cases tf <;> cases sq <;> cases ss <;> cases so <;> rfl
  · rw [tableJoin_clone_eq]; rfl
  · rcases j with ⟨loc, s, k, u, o, ch⟩
    cases u <;> cases o <;> rfl
  · rw [element_clone_eq]; rfl
  · rcases e with ⟨ej, et, ch⟩
    cases ej <;> cases et <;> rfl

/-- C14: the clone of a sequence has as many elements as the source, and its i-th element is the
clone of the i-th element of the source, for every position i. -/
theorem query_clone_elementwise {α : Type} [IAST α] (q : ASTTablesInSelectQuery α) :
    q.clone.children.length = q.children.length
    ∧ (∀ i : Nat, q.clone.children[i]? = (q.children[i]?).map ASTTablesInSelectQueryElement.clone)
    ∧ q.clone.children = q.children.map ASTTablesInSelectQueryElement.clone := by
  refine ⟨?_, ?_, rfl⟩
  · simp [ASTTablesInSelectQuery.clone]
  · intro i
    simp [ASTTablesInSelectQuery.clone]

/-- C15: each optional field of the clone of a table expression or of a join is populated exactly
when it is in the source. So a source with at most one populated source variant has a clone with
at most one, a source with none has a clone with none, and a join without both USING list and ON
predicate has a clone without both. -/
theorem clone_preserves_presence {α : Type} [IAST α] (t : ASTTableExpression α)
    (j : ASTTableJoin α) :
    (t.clone.database_and_table_name.isSome = t.database_and_table_name.isSome
      ∧ t.clone.table_function.isSome = t.table_function.isSome
      ∧ t.clone.subquery.isSome = t.subquery.isSome
      ∧ t.clone.sample_size.isSome = t.sample_size.isSome
      ∧ t.clone.sample_offset.isSome = t.sample_offset.isSome)
    ∧ (j.clone.using_expression_list.isSome = j.using_expression_list.isSome
      ∧ j.clone.on_expression.isSome = j.on_expression.isSome)
    ∧ ([t.database_and_table_name, t.table_function, t.subquery].reduceOption.length ≤ 1 →
        [t.clone.database_and_table_name, t.clone.table_function,
          t.clone.subquery].reduceOption.length ≤ 1)
    ∧ (t.database_and_table_name = none → t.table_function = none → t.subquery = none →
        t.clone.database_and_table_name = none ∧ t.clone.table_function = none
          ∧ t.clone.subquery = none)
    ∧ (¬ (j.using_expression_list.isSome ∧ j.on_expression.isSome) →
        ¬ (j.clone.using_expression_list.isSome ∧ j.clone.on_expression.isSome)) := by
  rw [tableExpression_clone_eq, tableJoin_clone_eq]
  rcases t with ⟨dbt, tf, sq, final, ss, so, ch⟩
  rcases j with ⟨loc, s, k, u, o, jch⟩
  refine ⟨by simp, by simp, ?_, ?_, by simp⟩
  · cases dbt <;> cases tf <;> cases sq <;> simp [List.reduceOption]
  · intro h1 h2 h3
    simp only at h1 h2 h3
    subst h1 h2 h3
    exact ⟨rfl, rfl, rfl⟩

/-- C15 at a table expression with the table reference as its only source and at a join with an
ON predicate only: the clones have the same single fields populated. -/
theorem clone_preserves_presence_witness :
    [staleTable.database_and_table_name, staleTable.table_function,
        staleTable.subquery].reduceOption.length ≤ 1
    ∧ [staleTable.clone.database_and_table_name, staleTable.clone.table_function,
        staleTable.clone.subquery].reduceOption.length ≤ 1
    ∧ ¬ (staleJoin.using_expression_list.isSome ∧ staleJoin.on_expression.isSome)
    ∧ ¬ (staleJoin.clone.using_expression_list.isSome ∧ staleJoin.clone.on_expression.isSome) :=
  ⟨by decide,
   (clone_preserves_presence staleTable staleJoin).2.2.1 (by decide),
   by decide,
   (clone_preserves_presence staleTable staleJoin).2.2.2.2 (by decide)⟩

/-- C19: when cloning a sub-tree of another node type twice gives the same as cloning it once,
the same holds of a table expression, of a join and of an element, whatever their children
collections held: fields and children collection of the second clone are those of the first. -/
theorem clone_idempotent {α : Type} [IAST α]
    (hc : ∀ c : α, IAST.clone (IAST.clone c) = IAST.clone c) (t : ASTTableExpression α)
    (j : ASTTableJoin α) (e : ASTTablesInSelectQueryElement α) :
    t.clone.clone = t.clone ∧ j.clone.clone = j.clone ∧ e.clone.clone = e.clone :=
  ⟨tableExpression_clone_clone hc t, tableJoin_clone_clone hc j,
    element_clone_clone hc e⟩

/-- C19 at nodes over leaves whose clone is marked as a copy, with children collections out of
step with their fields: the first clone differs from the source, the second clone is the first. -/
theorem clone_idempotent_witness :
    (∀ c : Tagged, IAST.clone (IAST.clone c) = IAST.clone c)
    ∧ staleTable.clone ≠ staleTable
    ∧ staleTable.clone.clone = staleTable.clone
    ∧ staleJoin.clone.clone = staleJoin.clone
    ∧ staleElement.clone.clone = staleElement.clone :=
  ⟨fun _ => rfl, by decide,
   (clone_idempotent (fun _ => rfl) staleTable staleJoin staleElement).1,
   (clone_idempotent (fun _ => rfl) staleTable staleJoin staleElement).2.1,
   (clone_idempotent (fun _ => rfl) staleTable staleJoin staleElement).2.2⟩

/-! ## Auxiliary facts about formatting a clone -/

/-- A clone of a sub-tree that renders like its source is rendered alike as an optional field. -/
theorem renderOpt_map_clone {α : Type} [IAST α]
    (hc : ∀ (c : α) (settings : FormatSettings) (st : FormatState) (frame : FormatStateStacked),
      IAST.formatImpl (IAST.clone c) settings st frame = IAST.formatImpl c settings st frame)
    (o : Option α) (settings : FormatSettings) (frame : FormatStateStacked) (st : FormatState) :
    renderOpt (o.map IAST.clone) settings frame st = renderOpt o settings frame st := by
  cases o with
  | none => rfl
  | some c => simp [renderOpt, hc]

/-- What follows the source is the same for cloned sample sub-trees that render like their
sources. -/
theorem remainderAfterSource_map_clone {α : Type} [IAST α]
    (hc : ∀ (c : α) (settings : FormatSettings) (st : FormatState) (frame : FormatStateStacked),
      IAST.formatImpl (IAST.clone c) settings st frame = IAST.formatImpl c settings st frame)
    (final : Bool) (sample_size sample_offset : Option α)
    (finalText sampleText offsetText : Ostr) (settings : FormatSettings)
    (frame : FormatStateStacked) :
    remainderAfterSource final (sample_size.map IAST.clone) (sample_offset.map IAST.clone)
        finalText sampleText offsetText settings frame
      = remainderAfterSource final sample_size sample_offset finalText sampleText offsetText
          settings frame := by
  funext st
  cases sample_size <;> cases sample_offset <;> simp [remainderAfterSource, hc]

/-- The format of the clone of a table expression is the format of the source. -/
theorem tableExpression_formatImpl_clone {α : Type} [IAST α]
    (hc : ∀ (c : α) (settings : FormatSettings) (st : FormatState) (frame : FormatStateStacked),
      IAST.formatImpl (IAST.clone c) settings st frame = IAST.formatImpl c settings st frame)
    (t : ASTTableExpression α) (settings : FormatSettings) (frame : FormatStateStacked) :
    t.clone.formatImpl settings frame = t.formatImpl settings frame := by
  funext st
  rw [ASTTableExpression.formatImpl_eq, ASTTableExpression.formatImpl_eq,
    tableExpression_clone_eq]
  have hsrc : (t.database_and_table_name.map IAST.clone <|> t.table_function.map IAST.clone
      <|> t.subquery.map IAST.clone)
      = (t.database_and_table_name <|> t.table_function <|> t.subquery).map IAST.clone := by
    rcases t with ⟨dbt, tf, sq, final, ss, so, ch⟩
    cases dbt <;> cases tf <;> cases sq <;> rfl
  simp only [hsrc, renderOpt_map_clone hc, remainderAfterSource_map_clone hc]

/-- The before-table phase of the clone of a join is that of the source. -/
theorem tableJoin_formatImplBeforeTable_clone {α : Type} [IAST α] (j : ASTTableJoin α)
    (settings : FormatSettings) (frame : FormatStateStacked) :
    j.clone.formatImplBeforeTable settings frame = j.formatImplBeforeTable settings frame := by
  funext st
  rw [ASTTableJoin.formatImplBeforeTable_eq, ASTTableJoin.formatImplBeforeTable_eq,
    tableJoin_clone_eq]

/-- The after-table phase of the clone of a join is that of the source. -/
theorem tableJoin_formatImplAfterTable_clone {α : Type} [IAST α]
    (hc : ∀ (c : α) (settings : FormatSettings) (st : FormatState) (frame : FormatStateStacked),
      IAST.formatImpl (IAST.clone c) settings st frame = IAST.formatImpl c settings st frame)
    (j : ASTTableJoin α) (settings : FormatSettings) (frame : FormatStateStacked) :
    j.clone.formatImplAfterTable settings frame = j.formatImplAfterTable settings frame := by
  funext st
  rw [ASTTableJoin.formatImplAfterTable_eq, ASTTableJoin.formatImplAfterTable_eq,
    tableJoin_clone_eq]
  rcases j with ⟨loc, s, k, u, o, ch⟩
  cases u <;> cases o <;> simp [hc]

/-- The format of the clone of an element is the format of the source. -/
theorem element_formatImpl_clone {α : Type} [IAST α]
    (hc : ∀ (c : α) (settings : FormatSettings) (st : FormatState) (frame : FormatStateStacked),
      IAST.formatImpl (IAST.clone c) settings st frame = IAST.formatImpl c settings st frame)
    (e : ASTTablesInSelectQueryElement α) (settings : FormatSettings)
    (frame : FormatStateStacked) :
    e.clone.formatImpl settings frame = e.formatImpl settings frame := by
  rw [element_clone_eq]
  rcases e with ⟨ej, et, ch⟩
  cases ej <;> cases et <;>
    simp [ASTTablesInSelectQueryElement.formatImpl, tableExpression_formatImpl_clone hc,
      tableJoin_formatImplBeforeTable_clone, tableJoin_formatImplAfterTable_clone hc]

/-- The loop over the clones of the elements is the loop over the elements. -/
theorem query_formatLoop_clone {α : Type} [IAST α]
    (hc : ∀ (c : α) (settings : FormatSettings) (st : FormatState) (frame : FormatStateStacked),
      IAST.formatImpl (IAST.clone c) settings st frame = IAST.formatImpl c settings st frame)
    (settings : FormatSettings) (frame : FormatStateStacked)
    (es : List (ASTTablesInSelectQueryElement α)) :
    ∀ at_begin : Bool,
      ASTTablesInSelectQuery.formatLoop settings frame at_begin
          (es.map fun child => child.clone)
        = ASTTablesInSelectQuery.formatLoop settings frame at_begin es := by
  induction es with
  | nil => intro b; rfl
  | cons e rest ih =>
    intro b
    simp only [List.map_cons, ASTTablesInSelectQuery.formatLoop,
      element_formatImpl_clone hc, ih]

/-! ## C11: the format of a clone -/

/-- C11: when the clone of every sub-tree of another node type is rendered like that sub-tree,
formatting the clone of a table expression, of a join (before-table phase, after-table phase and
standalone format), of an element and of a sequence does what formatting the source does, for all
settings, frames and incoming states: same text, same state, same way of leaving the call. -/
theorem format_clone_eq_format {α : Type} [IAST α]
    (hc : ∀ (c : α) (settings : FormatSettings) (st : FormatState) (frame : FormatStateStacked),
      IAST.formatImpl (IAST.clone c) settings st frame = IAST.formatImpl c settings st frame)
    (t : ASTTableExpression α) (j : ASTTableJoin α) (e : ASTTablesInSelectQueryElement α)
    (q : ASTTablesInSelectQuery α) (settings : FormatSettings) (frame : FormatStateStacked)
    (st : FormatState) :
    t.clone.formatImpl settings frame st = t.formatImpl settings frame st
    ∧ j.clone.formatImplBeforeTable settings frame st = j.formatImplBeforeTable settings frame st
    ∧ j.clone.formatImplAfterTable settings frame st = j.formatImplAfterTable settings frame st
    ∧ j.clone.formatImpl settings frame st = j.formatImpl settings frame st
    ∧ e.clone.formatImpl settings frame st = e.formatImpl settings frame st
    ∧ q.clone.formatImpl settings frame st = q.formatImpl settings frame st := by
  refine ⟨?_, ?_, ?_, ?_, ?_, ?_⟩
  · rw [tableExpression_formatImpl_clone hc]
  · rw [tableJoin_formatImplBeforeTable_clone]
  · rw [tableJoin_formatImplAfterTable_clone hc]
  · simp only [ASTTableJoin.formatImpl, tableJoin_formatImplBeforeTable_clone,
      tableJoin_formatImplAfterTable_clone hc]
  · rw [element_formatImpl_clone hc]
  · simp only [ASTTablesInSelectQuery.formatImpl, ASTTablesInSelectQuery.clone,
      query_formatLoop_clone hc]

/-- C11 at nodes over leaves whose clone is marked as a copy and renders like its source: the
clone of the table expression differs from it and is formatted to the same text. -/
theorem format_clone_eq_format_witness :
    (∀ (c : Tagged) (settings : FormatSettings) (st : FormatState) (frame : FormatStateStacked),
      IAST.formatImpl (IAST.clone c) settings st frame = IAST.formatImpl c settings st frame)
    ∧ staleTable.clone ≠ staleTable
    ∧ staleTable.clone.formatImpl multiLine topFrame ⟨0⟩
        = staleTable.formatImpl multiLine topFrame ⟨0⟩
    ∧ (staleTable.formatImpl multiLine topFrame ⟨0⟩).ostr = str "t\nFINAL\nSAMPLE 1/10"
    ∧ staleElement.clone.formatImpl multiLine topFrame ⟨0⟩
        = staleElement.formatImpl multiLine topFrame ⟨0⟩ :=
  ⟨fun _ _ _ _ => rfl, by decide,
   (format_clone_eq_format (fun _ _ _ _ => rfl) staleTable staleJoin staleElement
      ⟨[staleElement]⟩ multiLine topFrame ⟨0⟩).1,
   by decide,
   (format_clone_eq_format (fun _ _ _ _ => rfl) staleTable staleJoin staleElement
      ⟨[staleElement]⟩ multiLine topFrame ⟨0⟩).2.2.2.2.1⟩

/-! ## C16 – C18: failure of the before-table phase -/

/-- C16: the before-table phase is left by an exception exactly when the stored kind is none of
the seven named kinds; for each of the seven, whatever the locality, strictness and settings, it
returns and its text holds the kind token of that kind, which is not empty. -/
theorem before_table_fails_iff_kind_unnamed {α : Type} (j : ASTTableJoin α)
    (settings : FormatSettings) (frame : FormatStateStacked) (st : FormatState) :
    ((∃ x, (j.formatImplBeforeTable settings frame st).result = .thrown x) ↔ j.kind ∉ namedKinds)
    ∧ (j.kind ∈ namedKinds →
        (j.formatImplBeforeTable settings frame st).result = .returned ()
        ∧ ∃ tok, specKindToken j.kind = some tok ∧ str tok ≠ []
            ∧ str tok <:+: (j.formatImplBeforeTable settings frame st).ostr) := by
  rcases j with ⟨loc, s, k, u, o, ch⟩
  constructor
  · rw [ASTTableJoin.formatImplBeforeTable_eq]
    cases k <;> simp [specKindToken, namedKinds]
  · intro hk
    cases k
    case Other raw => simp [namedKinds] at hk
    all_goals
      refine ⟨by rw [ASTTableJoin.formatImplBeforeTable_eq]; rfl, _, rfl, by decide, ?_⟩
      rw [ASTTableJoin.formatImplBeforeTable_eq]
      exact ⟨_, _, rfl⟩

/-- C16 at kind Left: the phase returns and its text holds the token `LEFT JOIN`. -/
theorem before_table_fails_iff_kind_unnamed_witness :
    (bareJoin .Unspecified .Any .Left).kind ∈ namedKinds
    ∧ ((bareJoin .Unspecified .Any .Left).formatImplBeforeTable singleLine topFrame ⟨0⟩).result
        = .returned ()
    ∧ ∃ tok, specKindToken (bareJoin .Unspecified .Any .Left).kind = some tok ∧ str tok ≠ []
        ∧ str tok <:+:
          ((bareJoin .Unspecified .Any .Left).formatImplBeforeTable singleLine topFrame ⟨0⟩).ostr :=
  ⟨by decide,
   (before_table_fails_iff_kind_unnamed (bareJoin .Unspecified .Any .Left) singleLine topFrame
      ⟨0⟩).2 (by decide)⟩

/-- C17, as stated, fails: with highlighting on, locality Global, strictness Any and a kind
outside the seven named ones, the before-table phase is left by the exception after it has
written `hilite_keyword` and `GLOBAL ANY `. -/
theorem before_table_failure_after_partial_text :
    (bareJoin .Global .Any (.Other 0)).formatImplBeforeTable singleLineHilite topFrame ⟨0⟩
      = ⟨[Sym.hilite_keyword] ++ str "GLOBAL ANY ", ⟨0⟩, .thrown ⟨"Join kind not supported"⟩⟩
    ∧ ((bareJoin .Global .Any (.Other 0)).formatImplBeforeTable singleLineHilite topFrame
        ⟨0⟩).ostr ≠ [] := by
  decide

/-- C17, amended: when the before-table phase fails because the kind is none of the seven named
ones, the text it has appended is what precedes the `switch` on the kind: `hilite_keyword` if
highlighting is on, `GLOBAL ` if the locality is Global, `ANY ` or `ALL ` for strictness Any or
All; no kind token and no `hilite_none`. Nothing has been appended exactly when highlighting is
off, the locality is not Global and the strictness is Unspecified. -/
theorem before_table_failure_text {α : Type} (j : ASTTableJoin α) (settings : FormatSettings)
    (frame : FormatStateStacked) (st : FormatState) (raw : Nat) (hk : j.kind = Kind.Other raw) :
    j.formatImplBeforeTable settings frame st =
        ⟨(if settings.hilite then [Sym.hilite_keyword] else [])
            ++ str (specLocalityToken j.locality) ++ str (specStrictnessToken j.strictness),
          st, .thrown ⟨"Join kind not supported"⟩⟩
    ∧ ((j.formatImplBeforeTable settings frame st).ostr = [] ↔
        settings.hilite = false ∧ j.locality ≠ Locality.Global
          ∧ j.strictness = Strictness.Unspecified) := by
  rw [ASTTableJoin.formatImplBeforeTable_eq]
  rcases j with ⟨loc, s, k, u, o, ch⟩
  rcases settings with ⟨hl, ol, nl⟩
  simp only at hk
  subst hk
  cases hl <;> cases loc <;> cases s <;>
    simp [specKindToken, specLocalityToken, specStrictnessToken, hiliteKeywordIf, str]

/-- C17, amended, at a kind outside the seven named ones: with highlighting off, locality Global
and strictness Any the text left is `GLOBAL ANY `; with locality Local and strictness Unspecified
nothing is left. -/
theorem before_table_failure_text_witness :
    (bareJoin .Global .Any (.Other 0)).kind = Kind.Other 0
    ∧ (bareJoin .Global .Any (.Other 0)).formatImplBeforeTable singleLine topFrame ⟨0⟩
      = ⟨str "GLOBAL ANY ", ⟨0⟩, .thrown ⟨"Join kind not supported"⟩⟩
    ∧ ((bareJoin .Local .Unspecified (.Other 0)).formatImplBeforeTable singleLine topFrame
        ⟨0⟩).ostr = [] :=
  ⟨rfl,
   (before_table_failure_text (bareJoin .Global .Any (.Other 0)) singleLine topFrame ⟨0⟩ 0
      rfl).1.trans (by decide),
   (before_table_failure_text (bareJoin .Local .Unspecified (.Other 0)) singleLine topFrame ⟨0⟩ 0
      rfl).2.mpr ⟨rfl, by decide, rfl⟩⟩

/-- C18: an element whose `table_expression` is absent emits nothing, leaves the state alone and
returns, for all settings and frames and whatever `table_join` holds: a populated join, also one
with a kind outside the seven named ones, is not rendered. -/
theorem element_without_table_expression_is_noop {α : Type} [IAST α]
    (e : ASTTablesInSelectQueryElement α) (settings : FormatSettings)
    (frame : FormatStateStacked) (st : FormatState) (ht : e.table_expression = none) :
    e.formatImpl settings frame st = ⟨[], st, .returned ()⟩ :=
  ASTTablesInSelectQueryElement.formatImpl_absent e settings frame st ht

/-- C18 at an element with a join of a kind outside the seven named ones and no table
expression: nothing is written and the call returns. -/
theorem element_without_table_expression_is_noop_witness :
    joinOnlyElement.table_expression = none
    ∧ (∃ j, joinOnlyElement.table_join = some j ∧ j.kind = Kind.Other 0)
    ∧ joinOnlyElement.formatImpl singleLineHilite topFrame ⟨0⟩ = ⟨[], ⟨0⟩, .returned ()⟩ :=
  ⟨rfl, ⟨_, rfl, rfl⟩,
   element_without_table_expression_is_noop joinOnlyElement singleLineHilite topFrame ⟨0⟩ rfl⟩

/-! ## C20: `sample_offset` without `sample_size` -/

/-- C20: for a table expression whose `sample_size` is absent, the format does the same as for the
same table expression with `sample_offset` absent: it is the source rendering followed, if that
returned, by the `FINAL` part only, and the state is the one the source rendering left (so
`sample_offset` is not rendered); the text the node writes itself contains neither `SAMPLE` nor
`OFFSET` (the separator `nl_or_ws` is the only part of it the caller chooses). -/
theorem sample_offset_ignored_without_sample_size {α : Type} [IAST α]
    (t : ASTTableExpression α) (settings : FormatSettings) (frame : FormatStateStacked)
    (st : FormatState) (hs : t.sample_size = none) :
    let own : Ostr :=
      if t.final then
        (if settings.hilite then [Sym.hilite_keyword] else []) ++ str settings.nl_or_ws
          ++ (if settings.one_line then [] else List.replicate (4 * frame.indent) (Sym.ch ' '))
          ++ str "FINAL" ++ (if settings.hilite then [Sym.hilite_none] else [])
      else []
    let source :=
      renderOpt (t.database_and_table_name <|> t.table_function <|> t.subquery) settings frame st
    t.formatImpl settings frame st = ({ t with sample_offset := none }).formatImpl settings frame st
    ∧ t.formatImpl settings frame st = source.andThen (fun s => ⟨own, s, .returned ()⟩)
    ∧ (Sym.ch 'S' ∉ str settings.nl_or_ws → ¬ (str "SAMPLE" <:+: own))
    ∧ (Sym.ch 'O' ∉ str settings.nl_or_ws → ¬ (str "OFFSET" <:+: own)) := by
  intro own source
  rcases t with ⟨dbt, tf, sq, final, ss, so, ch⟩
  simp only at hs
  subst hs
  refine ⟨?_, ?_, ?_, ?_⟩
  · rw [ASTTableExpression.formatImpl_eq, ASTTableExpression.formatImpl_eq]
    rfl
  · rw [ASTTableExpression.formatImpl_eq]
    simp only [own, source, hiliteKeywordIf, hiliteNoneIf, indent_str]
    congr 1
  · intro hS hin
    have hmem : Sym.ch 'S' ∈ own := hin.subset (by decide)
    simp only [own] at hmem
    split_ifs at hmem <;> simp [str] at hmem hS <;> exact hS hmem
  · intro hO hin
    have hmem : Sym.ch 'O' ∈ own := hin.subset (by decide)
    simp only [own] at hmem
    split_ifs at hmem <;> simp [str] at hmem hO <;> exact hO hmem

/-- C20 at the table `t` with `FINAL`, a sample offset `5` and no sample size: the text is
`t FINAL`, as without the offset, and one sub-tree was rendered. -/
theorem sample_offset_ignored_without_sample_size_witness :
    offsetWithoutSize.sample_size = none
    ∧ offsetWithoutSize.sample_offset = some (Leaf.mk "5")
    ∧ offsetWithoutSize.formatImpl singleLine topFrame ⟨0⟩
      = ({ offsetWithoutSize with sample_offset := none }).formatImpl singleLine topFrame ⟨0⟩
    ∧ offsetWithoutSize.formatImpl singleLine topFrame ⟨0⟩ = ⟨str "t FINAL", ⟨1⟩, .returned ()⟩ :=
  ⟨rfl, rfl,
   (sample_offset_ignored_without_sample_size offsetWithoutSize singleLine topFrame ⟨0⟩ rfl).1,
   (sample_offset_ignored_without_sample_size offsetWithoutSize singleLine topFrame ⟨0⟩
      rfl).2.1.trans (by decide)⟩

end DB
